import Mathlib

/-!
# icejobs: a shallow embedding of `icejobs.cc`

The program discovers an Icecream scheduler, logs in as a monitor and sums the
`MaxJobs` figure of every distinct worker host.  Strings are byte lists
(`List Char`), the `unordered_map` is an association list whose `emplace`
keeps an existing binding, and everything outside the file (the discovery
probe, the message channel, `poll`, the process environment) is an oracle
`Env` whose answers are indexed by the number of calls made so far.
-/

set_option autoImplicit false

namespace Icejobs

/-! ## Strings, streams and the stats map -/

/-- A `std::string`. -/
abbrev Str := List Char

/-- The `host_stats_map` of the source: `std::unordered_map<std::string, std::string>`. -/
abbrev host_stats_map := List (Str × Str)

/-- The member `unordered_map::at`: the bound value, `none` standing for `std::out_of_range`. -/
def host_stats_map.at : host_stats_map → Str → Option Str
  | [], _ => none
  | (k, v) :: rest, key => if k = key then some v else host_stats_map.at rest key

/-- The member `unordered_map::emplace`: nothing is inserted when the key is already bound. -/
def host_stats_map.emplace (m : host_stats_map) (key value : Str) : host_stats_map :=
  match host_stats_map.at m key with
  | some _ => m
  | none => m ++ [(key, value)]

/-- A `std::stringstream` being read: the unread characters and the two state
bits that `operator bool` and the input sentry look at. -/
structure IStream where
  buf : Str
  eofbit : Bool
  failbit : Bool
deriving DecidableEq, Repr

/-- The characters extracted by `std::getline` up to the delimiter: the text
read, the unread rest, and whether the delimiter was found (and discarded)
before the end of the buffer. -/
def scan (delim : Char) : Str → Str × Str × Bool
  | [] => ([], [], false)
  | c :: cs =>
    if c = delim then ([], cs, true)
    else
      let r := scan delim cs
      (c :: r.1, r.2.1, r.2.2)

/-- The function `std::getline(stream, str, delim)`.  `old` is the previous content of
`str`, kept when the sentry refuses the stream.  Reaching the end of the
buffer sets `eofbit`; extracting nothing at all (not even a delimiter) sets
`failbit`. -/
def getline (s : IStream) (old : Str) (delim : Char) : Str × IStream :=
  if s.eofbit || s.failbit then (old, { s with failbit := true })
  else
    let r := scan delim s.buf
    if r.2.2 then (r.1, { buf := r.2.1, eofbit := false, failbit := false })
    else (r.1, { buf := r.2.1, eofbit := true, failbit := r.1.isEmpty })

/-- The conversion of a stream to `bool`: `!fail()`. -/
def IStream.ok (s : IStream) : Bool := !s.failbit

/-- The loop of `parse_stats`:
`while (getline(stream, key, ':') && getline(stream, value)) stats.emplace(key, value);`
The counter bounds the number of iterations; `parse_stats` starts it above
the length of the input, which is never exhausted (`parse_loop_fuel`). -/
def parse_loop : Nat → IStream → Str → Str → host_stats_map → host_stats_map
  | 0, _, _, _, stats => stats
  | n + 1, stream, key, value, stats =>
    let r1 := getline stream key ':'
    if r1.2.ok then
      let r2 := getline r1.2 value '\n'
      if r2.2.ok then
        parse_loop n r2.2 r1.1 r2.1 (host_stats_map.emplace stats r1.1 r2.1)
      else stats
    else stats

/-- The function `parse_stats` of the source. -/
def parse_stats (input : Str) : host_stats_map :=
  parse_loop (input.length + 1) { buf := input, eofbit := false, failbit := false } [] [] []

/-! ## `std::stoul` and the `int` arithmetic -/

/-- The exceptions the standard library raises in this program. -/
inductive Exn
  | out_of_range
  | invalid_argument
deriving DecidableEq, Repr

/-- The function `isspace` in the C locale. -/
def isspace (c : Char) : Bool :=
  c = ' ' || c = '\t' || c = '\n' || c = '\x0b' || c = '\x0c' || c = '\r'

/-- A decimal digit. -/
def isdigit (c : Char) : Bool := '0' ≤ c && c ≤ '9'

/-- The value of a string of decimal digits. -/
def digits_value (ds : Str) : Nat :=
  ds.foldl (fun acc c => 10 * acc + (c.toNat - '0'.toNat)) 0

/-- The constant `ULONG_MAX` on an LP64 platform. -/
def ULONG_MAX : Nat := 2 ^ 64 - 1

/-- The subject of `strtoul`: leading white space is skipped and one optional
sign is taken; the result says whether the sign was a minus and gives the
text after it. -/
def strip_sign (s : Str) : Bool × Str :=
  match s.dropWhile isspace with
  | '-' :: r => (true, r)
  | '+' :: r => (false, r)
  | r => (false, r)

/-- The function `std::stoul(s)` (base 10), as the C++ standard defines it over `strtoul`:
no digit after the optional sign is `invalid_argument`, a magnitude above
`ULONG_MAX` is `out_of_range`, trailing characters are ignored, and a minus
sign negates in `unsigned long`. -/
def stoul (s : Str) : Except Exn Nat :=
  let p := strip_sign s
  let ds := p.2.takeWhile isdigit
  if ds.isEmpty then Except.error Exn.invalid_argument
  else if ULONG_MAX < digits_value ds then Except.error Exn.out_of_range
  else if p.1 then Except.ok ((2 ^ 64 - digits_value ds) % 2 ^ 64)
  else Except.ok (digits_value ds)

/-- The value of a 32-bit `int` holding `x` modulo `2^32` (two's complement). -/
def wrap32 (x : Int) : Int := (x + 2 ^ 31) % 2 ^ 32 - 2 ^ 31

/-- The constant `INT_MAX`. -/
def INT_MAX : Int := 2 ^ 31 - 1

/-! ## The finder object and the world around it -/

/-- The `monitor_state` enumeration of `icecc_maxjobs_finder`. -/
inductive monitor_state
  | OFFLINE
  | ONLINE
deriving DecidableEq, Repr

/-- The message tag of `icecc/comm.h`; only `M_MON_STATS` is told apart. -/
inductive MsgType
  | M_MON_STATS
  | M_OTHER (tag : Nat)
deriving DecidableEq, Repr

/-- A decoded `Msg`: its tag and, when its dynamic type is `MonStatsMsg`
(the `dynamic_cast` succeeds), its `statmsg` payload. -/
structure Msg where
  type : MsgType
  statmsg : Option Str
deriving DecidableEq, Repr

/-- A `MsgChannel`: its descriptor and whether `setBulkTransfer` was called. -/
structure MsgChannel where
  fd : Int
  bulk : Bool
deriving DecidableEq, Repr

/-- What the program does to the outside, in order; a request for a
connection is recorded with its answer. -/
inductive Event
  | discover (name : Str)
  | try_get_scheduler (name : Str) (got : Option Int)
  | poll (fd : Int) (timeout : Int)
  | usleep (us : Nat)
  | sleep (s : Nat)
  | perror (msg : Str)
  | send_login
  | release (fd : Int)
deriving DecidableEq, Repr

/-- The collaborators of the program.  The `Nat` argument of an answer is the
number of calls answered before it, so that an `Env` is an arbitrary history
of answers. -/
structure Env where
  USE_SCHEDULER : Option Str
  try_get_scheduler : Str → Nat → Option Int
  timed_out : Str → Nat → Bool
  listen_fd : Str → Nat → Int
  networkName : Str → Nat → Str
  schedulerName : Str → Nat → Str
  poll : Int → Int → Nat → Int
  send_msg : Nat → Bool
  read_a_bit : Nat → Bool
  has_msg : Nat → Bool
  get_msg : Nat → Option Msg

/-- The fields of `icecc_maxjobs_finder`, the standard output, the events
so far and the number of answers consumed from the `Env`. -/
structure Sys where
  network_name : Str
  scheduler_name : Str
  scheduler : Option MsgChannel
  state : monitor_state
  known_ips : List Str
  total_jobs_available : Int
  stdout : Str
  events : List Event
  tick : Nat
deriving DecidableEq, Repr

/-- The constructor `icecc_maxjobs_finder()`, in a process that has done nothing yet. -/
def Sys.fresh : Sys :=
  { network_name := [], scheduler_name := [], scheduler := none,
    state := monitor_state.OFFLINE, known_ips := [], total_jobs_available := 0,
    stdout := [], events := [], tick := 0 }

/-- How a piece of the program ends. -/
inductive Res (α : Type)
  | ret (a : α) (s : Sys)
  | exit (code : Int) (s : Sys)
  | throw (e : Exn) (s : Sys)
  | null_deref (s : Sys)
  | out_of_fuel (s : Sys)
deriving DecidableEq, Repr

/-- The state in which a piece of the program ended. -/
def Res.sys {α : Type} : Res α → Sys
  | Res.ret _ s => s
  | Res.exit _ s => s
  | Res.throw _ s => s
  | Res.null_deref s => s
  | Res.out_of_fuel s => s

/-- Sequencing: only a normal return continues. -/
def Res.bind {α β : Type} (r : Res α) (f : α → Sys → Res β) : Res β :=
  match r with
  | Res.ret a s => f a s
  | Res.exit c s => Res.exit c s
  | Res.throw e s => Res.throw e s
  | Res.null_deref s => Res.null_deref s
  | Res.out_of_fuel s => Res.out_of_fuel s

/-- One answer was consumed and one event happened. -/
def Sys.step (s : Sys) (e : Event) : Sys :=
  { s with events := s.events ++ [e], tick := s.tick + 1 }

/-- One answer was consumed. -/
def Sys.next (s : Sys) : Sys := { s with tick := s.tick + 1 }

/-- An event that asks nothing of the environment. -/
def Sys.log (s : Sys) (e : Event) : Sys := { s with events := s.events ++ [e] }

/-- The constant `EXIT_FAILURE`. -/
def EXIT_FAILURE : Int := 1

/-- The function `fdin` of the source: `poll` on one descriptor; the result of `poll` when
negative, `-1` when it is zero (time-out), `0` otherwise. -/
def fdin (env : Env) (fd : Int) (deadline_ms : Int) (s : Sys) : Int × Sys :=
  let res := env.poll fd deadline_ms s.tick
  let s1 := s.step (Event.poll fd deadline_ms)
  if res < 0 then (res, s1)
  else if res = 0 then (-1, s1)
  else (0, s1)

/-- The text `printf("%d", n)` writes. -/
def fmt_d (n : Int) : Str :=
  if n < 0 then '-' :: Nat.toDigits 10 n.natAbs else Nat.toDigits 10 n.natAbs

/-- The method `print_jobs_and_quit` of the source. -/
def print_jobs_and_quit {α : Type} (s : Sys) : Res α :=
  Res.exit 0 { s with stdout := s.stdout ++ fmt_d s.total_jobs_available ++ ['\n'] }

/-- The key `"IP"` of a stats payload. -/
def KEY_IP : Str := "IP".toList

/-- The key `"MaxJobs"` of a stats payload. -/
def KEY_MAXJOBS : Str := "MaxJobs".toList

/-- The method `handle_host_stats` of the source, on the `statmsg` of the
message.  The conversion of the `unsigned long` to `int` and the `int`
addition are taken modulo `2^32`, as on two's-complement hardware. -/
def handle_host_stats (statmsg : Str) (s : Sys) : Res Unit :=
  let stats := parse_stats statmsg
  match host_stats_map.at stats KEY_IP with
  | none => Res.throw Exn.out_of_range s
  | some ip =>
    if ip ∈ s.known_ips then Res.ret () s
    else
      match host_stats_map.at stats KEY_MAXJOBS with
      | none => Res.throw Exn.out_of_range s
      | some mj =>
        match stoul mj with
        | Except.error e => Res.throw e s
        | Except.ok n =>
          let max_jobs := wrap32 n
          let s1 := { s with total_jobs_available := wrap32 (s.total_jobs_available + max_jobs) }
          Res.ret () { s1 with known_ips := s1.known_ips ++ [ip] }

/-! ## Discovery -/

/-- The names tried by one pass of `check_scheduler` (the vector `names`). -/
def candidate_names (env : Env) (s : Sys) : List Str :=
  (if !s.network_name.isEmpty then [s.network_name] else ["ICECREAM".toList])
    ++ (match env.USE_SCHEDULER with
        | some e => [e]
        | none => [])

/-- The statement `scheduler.reset(discover->try_get_scheduler())`. -/
def reset_scheduler (env : Env) (name : Str) (s : Sys) : Sys :=
  let got := env.try_get_scheduler name s.tick
  let s1 := s.step (Event.try_get_scheduler name got)
  let s2 := match s1.scheduler with
    | some old => s1.log (Event.release old.fd)
    | none => s1
  { s2 with scheduler := got.map (fun fd => { fd := fd, bulk := false }) }

/-- The loop `while (!scheduler && !discover->timed_out())` on one probe. -/
def probe_wait (env : Env) (name : Str) : Nat → Sys → Res Unit
  | 0, s => Res.out_of_fuel s
  | fuel + 1, s =>
    if s.scheduler.isSome then Res.ret () s
    else if env.timed_out name s.tick then Res.ret () s.next
    else
      let s1 := s.next
      if env.listen_fd name s1.tick ≠ -1 then
        let s2 := s1.next
        let r := fdin env (env.listen_fd name s2.tick) 3000 s2.next
        if r.1 ≠ 0 then
          Res.exit EXIT_FAILURE (r.2.log (Event.perror "waiting for socket".toList))
        else probe_wait env name fuel (reset_scheduler env name r.2)
      else
        probe_wait env name fuel (reset_scheduler env name (s1.next.log (Event.usleep 50000)))

/-- The body of `for (auto name : names)` once the probe has stopped waiting
with a connection: the four assignments before `return`. -/
def adopt (env : Env) (name : Str) (ch : MsgChannel) (s : Sys) : Sys :=
  let s1 := { s with state := monitor_state.ONLINE }
  let s2 := { s1.next with network_name := env.networkName name s1.tick }
  let s3 := { s2.next with scheduler_name := env.schedulerName name s2.tick }
  { s3 with scheduler := some { ch with bulk := true } }

/-- The loop `for (auto name : names)`.  The result is `true` when the
`return` inside it was taken. -/
def probe_names (env : Env) (fuel : Nat) : List Str → Sys → Res Bool
  | [], s => Res.ret false s
  | name :: rest, s =>
    let s1 := reset_scheduler env name (s.log (Event.discover name))
    (probe_wait env name fuel s1).bind fun _ s2 =>
      match s2.scheduler with
      | some ch => Res.ret true (adopt env name ch s2)
      | none => probe_names env fuel rest s2

/-- The loop `while (!scheduler)` of `check_scheduler`. -/
def check_scheduler_loop (env : Env) : Nat → Sys → Res Unit
  | 0, s => Res.out_of_fuel s
  | fuel + 1, s =>
    if s.scheduler.isSome then Res.ret () s
    else
      (probe_names env fuel (candidate_names env s) s).bind fun found s1 =>
        if found then Res.ret () s1 else check_scheduler_loop env fuel s1

/-- The method `check_scheduler` of the source. -/
def check_scheduler (env : Env) (fuel : Nat) (deleteit : Bool) (s : Sys) : Res Unit :=
  let s1 :=
    if deleteit then
      match s.scheduler with
      | some old => { s.log (Event.release old.fd) with scheduler := none }
      | none => s
    else s
  check_scheduler_loop env fuel s1

/-! ## The message loop -/

/-- The method `handle_activity` of the source. -/
def handle_activity (env : Env) (fuel : Nat) (s : Sys) : Res Bool :=
  match s.scheduler with
  | none => Res.null_deref s
  | some _ =>
    match env.get_msg s.tick with
    | none =>
      (check_scheduler env fuel false s.next).bind fun _ s1 =>
        Res.ret false { s1 with state := monitor_state.OFFLINE }
    | some m =>
      if m.type = MsgType.M_MON_STATS then
        match m.statmsg with
        | some sm => (handle_host_stats sm s.next).bind fun _ s1 => Res.ret true s1
        | none => Res.ret true s.next
      else Res.ret false s.next

/-- The condition `!scheduler->read_a_bit() || scheduler->has_msg()`, with
the state after its evaluation; `has_msg` is asked only when `read_a_bit`
succeeded. -/
def drain_cond (env : Env) (s : Sys) : Bool × Sys :=
  if !env.read_a_bit s.tick then (true, s.next)
  else (env.has_msg s.next.tick, s.next.next)

/-- The loop `while (!scheduler->read_a_bit() || scheduler->has_msg())` of `listen`. -/
def listen_drain (env : Env) : Nat → Sys → Res Unit
  | 0, s => Res.out_of_fuel s
  | fuel + 1, s =>
    match s.scheduler with
    | none => Res.null_deref s
    | some _ =>
      let c := drain_cond env s
      if c.1 then
        (handle_activity env fuel c.2).bind fun go s1 =>
          if go then listen_drain env fuel s1 else print_jobs_and_quit s1
      else Res.ret () c.2

/-- The loop `while (true)` of `listen`. -/
def listen_loop (env : Env) (deadline_ms : Int) : Nat → Sys → Res Unit
  | 0, s => Res.out_of_fuel s
  | fuel + 1, s =>
    match s.scheduler with
    | none => Res.null_deref s
    | some ch =>
      let r := fdin env ch.fd (wrap32 deadline_ms) s
      if r.1 ≠ 0 then print_jobs_and_quit r.2
      else (listen_drain env fuel r.2).bind fun _ s1 => listen_loop env deadline_ms fuel s1

/-- The method `listen` of the source. -/
def listen (env : Env) (fuel : Nat) (deadline_ms : Int) (s : Sys) : Res Unit :=
  match s.scheduler with
  | none => Res.null_deref s
  | some _ =>
    if !env.send_msg s.tick then
      check_scheduler env fuel true ((s.step Event.send_login).log (Event.sleep 1))
    else listen_loop env deadline_ms fuel (s.step Event.send_login)

/-- The loop `while (!finder.scheduler) usleep(100000);` of `main`. -/
def main_wait : Nat → Sys → Res Unit
  | 0, s => Res.out_of_fuel s
  | fuel + 1, s =>
    if s.scheduler.isSome then Res.ret () s
    else main_wait fuel (s.log (Event.usleep 100000))

/-- The function `main` of the source; returning from `main` ends the process with that status. -/
def main (env : Env) (fuel : Nat) : Res Unit :=
  ((check_scheduler env fuel false Sys.fresh).bind fun _ s1 =>
    (main_wait fuel s1).bind fun _ s2 => listen env fuel 2000 s2).bind fun _ s3 =>
      Res.exit 0 s3

/-! ## Specification-side definitions -/

/-- The payload made of the lines `key:remainder`, separated by newlines;
the flag says whether the last line is followed by a newline. -/
def render_lines : List (Str × Str) → Bool → Str
  | [], _ => []
  | [(k, v)], nl => k ++ ':' :: v ++ (if nl then ['\n'] else [])
  | (k, v) :: l :: rest, nl => k ++ ':' :: v ++ '\n' :: render_lines (l :: rest) nl

/-- The lines of a payload that reach `emplace`: all of them, except a last
line with an empty remainder and no newline after it. -/
def bound_lines : List (Str × Str) → Bool → List (Str × Str)
  | [], _ => []
  | [(k, v)], nl => if !nl && v.isEmpty then [] else [(k, v)]
  | (k, v) :: l :: rest, nl => (k, v) :: bound_lines (l :: rest) nl

/-- The remainder of the first line whose prefix before the colon is `key`. -/
def first_remainder (lines : List (Str × Str)) (key : Str) : Option Str :=
  (lines.find? (fun l => l.1 = key)).map (fun l => l.2)

/-- A line of a payload: the key has no colon and neither part has a newline. -/
def line_ok (l : Str × Str) : Prop := ':' ∉ l.1 ∧ '\n' ∉ l.1 ∧ '\n' ∉ l.2

deriving instance DecidableEq for Except

/-- The payloads of a sequence of stats messages, handled one after the other. -/
def handle_all : List Str → Sys → Res Unit
  | [], s => Res.ret () s
  | p :: ps, s => (handle_host_stats p s).bind fun _ s1 => handle_all ps s1

/-- A string of decimal digits, at least one. -/
def is_decimal (v : Str) : Bool := !v.isEmpty && v.all isdigit

/-- What a payload carries: its `IP` and the number its `MaxJobs` denotes,
when it has both keys and the `MaxJobs` value is a string of decimal digits. -/
def carried (p : Str) : Option (Str × Nat) :=
  match host_stats_map.at (parse_stats p) KEY_IP,
        host_stats_map.at (parse_stats p) KEY_MAXJOBS with
  | some ip, some v => if is_decimal v then some (ip, digits_value v) else none
  | _, _ => none

/-- The `MaxJobs` of the first report bearing `ip`. -/
def first_max_jobs (recs : List (Str × Nat)) (ip : Str) : Nat :=
  ((recs.find? (fun r => r.1 = ip)).map (fun r => r.2)).getD 0

/-- The sum, over the distinct IPs of the reports, of the `MaxJobs` of the
first report bearing each. -/
def first_seen_total (recs : List (Str × Nat)) : Nat :=
  ∑ ip ∈ (recs.map (fun r => r.1)).toFinset, first_max_jobs recs ip

/-- The sum of the first-seen `MaxJobs` over the IPs of `recs` not yet in `known`. -/
def unseen_total (recs : List (Str × Nat)) (known : List Str) : Nat :=
  ∑ ip ∈ (recs.map (fun r => r.1)).toFinset \ known.toFinset, first_max_jobs recs ip

/-- The names for which a probe was started, in order. -/
def probes_started : List Event → List Str
  | [] => []
  | Event.discover name :: rest => name :: probes_started rest
  | _ :: rest => probes_started rest

/-- The connections the probes produced, in order, each with the probed name. -/
def connections_got : List Event → List (Str × Int)
  | [] => []
  | Event.try_get_scheduler name (some fd) :: rest => (name, fd) :: connections_got rest
  | _ :: rest => connections_got rest

/-- What `probe_wait` guarantees about its result `r` from state `s`. -/
def probe_wait_post (name : Str) (s : Sys) (r : Res Unit) : Prop :=
  ∃ added, r.sys.events = s.events ++ added ∧ probes_started added = []
    ∧ r.sys.stdout = s.stdout ∧ r.sys.network_name = s.network_name
    ∧ r.sys.scheduler_name = s.scheduler_name ∧ r.sys.state = s.state
    ∧ r.sys.total_jobs_available = s.total_jobs_available ∧ r.sys.known_ips = s.known_ips
    ∧ (∀ c s1, r = Res.exit c s1 → c = EXIT_FAILURE)
    ∧ (∀ s1, r = Res.ret () s1 →
        (s.scheduler.isSome = true → s1 = s)
        ∧ (s.scheduler = none →
            (s1.scheduler = none ∧ connections_got added = [])
            ∨ ∃ fd, s1.scheduler = some { fd := fd, bulk := false }
                ∧ connections_got added = [(name, fd)]))

/-- What one pass over the candidate names guarantees. -/
def probe_names_post (env : Env) (names : List Str) (s : Sys) (r : Res Bool) : Prop :=
  ∃ added, r.sys.events = s.events ++ added ∧ probes_started added <+: names
    ∧ r.sys.stdout = s.stdout
    ∧ r.sys.total_jobs_available = s.total_jobs_available ∧ r.sys.known_ips = s.known_ips
    ∧ (∀ c s1, r = Res.exit c s1 → c = EXIT_FAILURE)
    ∧ (∀ s1, r = Res.ret false s1 →
        probes_started added = names ∧ connections_got added = [] ∧ s1.scheduler = none
          ∧ s1.network_name = s.network_name)
    ∧ (∀ s1, r = Res.ret true s1 →
        ∃ pre name post fd, names = pre ++ name :: post
          ∧ probes_started added = pre ++ [name] ∧ connections_got added = [(name, fd)]
          ∧ s1.scheduler = some { fd := fd, bulk := true }
          ∧ s1.state = monitor_state.ONLINE
          ∧ s1.network_name = env.networkName name (s1.tick - 2)
          ∧ s1.scheduler_name = env.schedulerName name (s1.tick - 1))

/-- The candidate list tried `k` times over. -/
def repeat_names : Nat → List Str → List Str
  | 0, _ => []
  | k + 1, names => names ++ repeat_names k names

/-- What the loop of `check_scheduler` guarantees. -/
def check_loop_post (env : Env) (s : Sys) (r : Res Unit) : Prop :=
  ∃ added, r.sys.events = s.events ++ added ∧ r.sys.stdout = s.stdout
    ∧ r.sys.total_jobs_available = s.total_jobs_available ∧ r.sys.known_ips = s.known_ips
    ∧ (∀ c s1, r = Res.exit c s1 → c = EXIT_FAILURE)
    ∧ (∀ s1, r = Res.ret () s1 →
        (s.scheduler.isSome = true → s1 = s)
        ∧ (s.scheduler = none →
            ∃ k pre name post fd, candidate_names env s = pre ++ name :: post
              ∧ probes_started added = repeat_names k (candidate_names env s) ++ (pre ++ [name])
              ∧ connections_got added = [(name, fd)]
              ∧ s1.scheduler = some { fd := fd, bulk := true }
              ∧ s1.state = monitor_state.ONLINE
              ∧ s1.network_name = env.networkName name (s1.tick - 2)
              ∧ s1.scheduler_name = env.schedulerName name (s1.tick - 1)))

/-- What the loops of `listen` guarantee: a normal return prints nothing and
keeps the connection, an exit is the one of `print_jobs_and_quit`, an
exception prints nothing, and no null pointer is dereferenced when a
connection is held. -/
def listen_post (s : Sys) (r : Res Unit) : Prop :=
  (∀ s1, r = Res.ret () s1 → s1.stdout = s.stdout ∧ s1.scheduler = s.scheduler)
    ∧ (∀ c s1, r = Res.exit c s1 →
        c = 0 ∧ s1.stdout = s.stdout ++ fmt_d s1.total_jobs_available ++ ['\n'])
    ∧ (∀ e s1, r = Res.throw e s1 → s1.stdout = s.stdout)
    ∧ (s.scheduler.isSome = true → ∀ s1, r ≠ Res.null_deref s1)

/-- An environment with a scheduler that never answers: every wait on the
probe's descriptor elapses (`poll` gives 0) and the probe has not timed out. -/
def env_silent : Env :=
  { USE_SCHEDULER := none
    try_get_scheduler := fun _ _ => none
    timed_out := fun _ _ => false
    listen_fd := fun _ _ => 3
    networkName := fun _ _ => []
    schedulerName := fun _ _ => []
    poll := fun _ _ _ => 0
    send_msg := fun _ => true
    read_a_bit := fun _ => true
    has_msg := fun _ => false
    get_msg := fun _ => none }

/-- An environment in which the network `BAR`, named by `USE_SCHEDULER`, has a
scheduler and no other network has: a probe for another name times out at
once.  The connection is closed by the peer: nothing can be sent on it, and
decoding a message yields nothing. -/
def env_bar : Env :=
  { USE_SCHEDULER := some "BAR".toList
    try_get_scheduler := fun name _ => if name = "BAR".toList then some 7 else none
    timed_out := fun _ _ => true
    listen_fd := fun _ _ => 3
    networkName := fun name _ => name
    schedulerName := fun _ _ => "sched".toList
    poll := fun _ _ _ => 1
    send_msg := fun _ => false
    read_a_bit := fun _ => true
    has_msg := fun _ => true
    get_msg := fun _ => none }

/-- An environment whose connection accepts the login and then stays quiet:
every wait elapses. -/
def env_quiet : Env :=
  { USE_SCHEDULER := none
    try_get_scheduler := fun _ _ => some 5
    timed_out := fun _ _ => false
    listen_fd := fun _ _ => 3
    networkName := fun name _ => name
    schedulerName := fun _ _ => "sched".toList
    poll := fun _ _ _ => 0
    send_msg := fun _ => true
    read_a_bit := fun _ => true
    has_msg := fun _ => false
    get_msg := fun _ => some { type := MsgType.M_OTHER 0, statmsg := none } }

/-- An environment whose connection always has a message ready, which is
never a stats message. -/
def env_other : Env :=
  { USE_SCHEDULER := none
    try_get_scheduler := fun _ _ => some 5
    timed_out := fun _ _ => false
    listen_fd := fun _ _ => 3
    networkName := fun name _ => name
    schedulerName := fun _ _ => "sched".toList
    poll := fun _ _ _ => 1
    send_msg := fun _ => true
    read_a_bit := fun _ => true
    has_msg := fun _ => true
    get_msg := fun _ => some { type := MsgType.M_OTHER 0, statmsg := none } }

/-- An environment whose connection delivers stats reports of the host
10.0.0.9 that lack the `MaxJobs` key. -/
def env_no_maxjobs : Env :=
  { USE_SCHEDULER := none
    try_get_scheduler := fun _ _ => some 5
    timed_out := fun _ _ => false
    listen_fd := fun _ _ => 3
    networkName := fun name _ => name
    schedulerName := fun _ _ => "sched".toList
    poll := fun _ _ _ => 1
    send_msg := fun _ => true
    read_a_bit := fun _ => true
    has_msg := fun _ => true
    get_msg := fun _ => some { type := MsgType.M_MON_STATS, statmsg := some "IP:10.0.0.9".toList } }

/-- An environment in which no network has a scheduler, with the override
`BAR`: every probe times out at once without a connection. -/
def env_nobody : Env :=
  { USE_SCHEDULER := some "BAR".toList
    try_get_scheduler := fun _ _ => none
    timed_out := fun _ _ => true
    listen_fd := fun _ _ => 3
    networkName := fun name _ => name
    schedulerName := fun _ _ => "sched".toList
    poll := fun _ _ _ => 1
    send_msg := fun _ => true
    read_a_bit := fun _ => true
    has_msg := fun _ => false
    get_msg := fun _ => none }

/-- A finder configured for the network `FOO`, before discovery. -/
def sys_foo : Sys := { Sys.fresh with network_name := "FOO".toList }

/-- A session on the connection with descriptor 5 that has counted 7 jobs on two hosts. -/
def sys_seven : Sys :=
  { Sys.fresh with
    scheduler := some { fd := 5, bulk := true }
    state := monitor_state.ONLINE
    known_ips := ["10.0.0.1".toList, "10.0.0.2".toList]
    total_jobs_available := 7 }

/-! ## Theorems -/

theorem scan_found (d : Char) (a b : Str) (h : d ∉ a) :
    scan d (a ++ d :: b) = (a, b, true) := by
  induction a with
  | nil => simp [scan]
  | cons c cs ih =>
    have hc : c ≠ d := fun e => h (by simp [e])
    have hcs : d ∉ cs := fun m => h (by simp [m])
    simp [scan, hc, ih hcs]

theorem scan_end (d : Char) (a : Str) (h : d ∉ a) :
    scan d a = (a, [], false) := by
  induction a with
  | nil => simp [scan]
  | cons c cs ih =>
    have hc : c ≠ d := fun e => h (by simp [e])
    have hcs : d ∉ cs := fun m => h (by simp [m])
    simp [scan, hc, ih hcs]

theorem scan_length (d : Char) (l : Str) :
    (scan d l).1.length + (scan d l).2.1.length + (if (scan d l).2.2 then 1 else 0) = l.length := by
  induction l with
  | nil => simp [scan]
  | cons c cs ih =>
    by_cases hc : c = d
    · simp [scan, hc]
    · simp only [scan, hc, if_false, List.length_cons]
      omega

theorem getline_ok_lt (s : IStream) (old : Str) (d : Char)
    (h : (getline s old d).2.ok = true) : (getline s old d).2.buf.length < s.buf.length := by
  have hl := scan_length d s.buf
  unfold getline at h ⊢
  split at h
  · simp [IStream.ok] at h
  · rename_i hs
    rw [if_neg hs]
    dsimp only at h ⊢
    split at h
    · rename_i hf
      rw [if_pos hf]
      rw [if_pos hf] at hl
      show (scan d s.buf).2.1.length < _
      omega
    · rename_i hf
      rw [if_neg hf]
      rw [if_neg hf] at hl
      have hne : (scan d s.buf).1 ≠ [] := by
        intro e
        simp [IStream.ok, e] at h
      have : 0 < (scan d s.buf).1.length := List.length_pos.mpr hne
      show (scan d s.buf).2.1.length < _
      omega

theorem getline_le (s : IStream) (old : Str) (d : Char) :
    (getline s old d).2.buf.length ≤ s.buf.length := by
  have hl := scan_length d s.buf
  unfold getline
  split
  · exact Nat.le_refl _
  · dsimp only
    split
    · show (scan d s.buf).2.1.length ≤ _
      omega
    · show (scan d s.buf).2.1.length ≤ _
      omega

theorem parse_loop_fuel_aux : ∀ (n : Nat) (m : Nat) (s : IStream) (key value : Str)
    (stats : host_stats_map), s.buf.length < n → s.buf.length < m →
    parse_loop n s key value stats = parse_loop m s key value stats := by
  intro n
  induction n with
  | zero => intro m s key value stats h; omega
  | succ n ih =>
    intro m s key value stats hn hm
    cases m with
    | zero => omega
    | succ m =>
      simp only [parse_loop]
      by_cases h1 : (getline s key ':').2.ok = true
      · by_cases h2 : (getline (getline s key ':').2 value '\n').2.ok = true
        · simp only [h1, h2, if_true]
          have a := getline_ok_lt s key ':' h1
          have b := getline_le (getline s key ':').2 value '\n'
          exact ih m _ _ _ _ (by omega) (by omega)
        · simp [h1, h2]
      · simp [h1]

/-- The iteration bound of `parse_stats` is never the reason the loop stops:
any larger bound gives the same map. -/
theorem parse_loop_fuel (input : Str) (n : Nat) (h : input.length < n) :
    parse_loop n { buf := input, eofbit := false, failbit := false } [] [] [] = parse_stats input :=
  parse_loop_fuel_aux n (input.length + 1) _ _ _ _ h (Nat.lt_succ_self _)

theorem at_append (a b : host_stats_map) (key : Str) :
    host_stats_map.at (a ++ b) key =
      match host_stats_map.at a key with
      | some x => some x
      | none => host_stats_map.at b key := by
  induction a with
  | nil => simp [host_stats_map.at]
  | cons p rest ih =>
    obtain ⟨k, v⟩ := p
    by_cases hk : k = key
    · simp [host_stats_map.at, hk]
    · simp [host_stats_map.at, hk, ih]

theorem at_emplace (m : host_stats_map) (k v key : Str) :
    host_stats_map.at (host_stats_map.emplace m k v) key =
      match host_stats_map.at m key with
      | some x => some x
      | none => if k = key then some v else none := by
  unfold host_stats_map.emplace
  by_cases hk : k = key
  · subst hk
    cases hm : host_stats_map.at m k with
    | none => simp [at_append, hm, host_stats_map.at]
    | some x => simp [hm]
  · cases hm : host_stats_map.at m k with
    | none => simp [at_append, host_stats_map.at, hk]
    | some x =>
      simp only [hk, if_false]
      cases host_stats_map.at m key <;> rfl

theorem at_foldl_emplace (lines : List (Str × Str)) : ∀ (m : host_stats_map) (key : Str),
    host_stats_map.at (lines.foldl (fun acc l => host_stats_map.emplace acc l.1 l.2) m) key =
      match host_stats_map.at m key with
      | some x => some x
      | none => first_remainder lines key := by
  induction lines with
  | nil =>
    intro m key
    simp only [List.foldl_nil]
    cases host_stats_map.at m key <;> simp [first_remainder]
  | cons l rest ih =>
    intro m key
    rw [List.foldl_cons, ih, at_emplace]
    cases hm : host_stats_map.at m key with
    | some x => simp
    | none =>
      by_cases hk : l.1 = key
      · simp [first_remainder, List.find?, hk]
      · simp [first_remainder, List.find?, hk]

theorem parse_loop_render : ∀ (lines : List (Str × Str)) (nl : Bool),
    (∀ l ∈ lines, line_ok l) → ∀ (n : Nat) (key value : Str) (stats : host_stats_map),
    (render_lines lines nl).length < n →
    parse_loop n { buf := render_lines lines nl, eofbit := false, failbit := false } key value stats
      = (bound_lines lines nl).foldl (fun acc l => host_stats_map.emplace acc l.1 l.2) stats := by
  intro lines nl
  induction lines with
  | nil =>
    intro _ n key value stats hn
    cases n with
    | zero => omega
    | succ n => simp [render_lines, bound_lines, parse_loop, getline, scan, IStream.ok]
  | cons l rest ih =>
    intro hok n key value stats hn
    obtain ⟨k, v⟩ := l
    have hl : line_ok (k, v) := hok _ (List.mem_cons_self _ _)
    obtain ⟨hk, _, hv⟩ := hl
    cases n with
    | zero => omega
    | succ n =>
      cases rest with
      | nil =>
        cases nl with
        | true =>
          have e1 : scan ':' (k ++ ':' :: (v ++ ['\n'])) = (k, v ++ ['\n'], true) :=
            scan_found ':' k _ hk
          have e2 : scan '\n' (v ++ ['\n']) = (v, [], true) := scan_found '\n' v [] hv
          cases n with
          | zero => simp [render_lines] at hn
          | succ n =>
            simp [render_lines, bound_lines, parse_loop, getline, e1, e2, IStream.ok, scan]
        | false =>
          have e1 : scan ':' (k ++ ':' :: v) = (k, v, true) := scan_found ':' k _ hk
          have e2 : scan '\n' v = (v, [], false) := scan_end '\n' v hv
          cases n with
          | zero => simp [render_lines] at hn
          | succ n =>
            cases v with
            | nil => simp [render_lines, bound_lines, parse_loop, getline, e1, IStream.ok, scan]
            | cons c cs =>
              simp [render_lines, bound_lines, parse_loop, getline, e1, e2, IStream.ok]
      | cons l2 rest2 =>
        have e1 : scan ':' (k ++ ':' :: (v ++ '\n' :: render_lines (l2 :: rest2) nl))
            = (k, v ++ '\n' :: render_lines (l2 :: rest2) nl, true) := scan_found ':' k _ hk
        have e2 : scan '\n' (v ++ '\n' :: render_lines (l2 :: rest2) nl)
            = (v, render_lines (l2 :: rest2) nl, true) := scan_found '\n' v _ hv
        have hlen : (render_lines (l2 :: rest2) nl).length < n := by
          simp [render_lines] at hn
          omega
        have := ih (fun l hl => hok l (List.mem_cons_of_mem _ hl)) n k v
          (host_stats_map.emplace stats k v) hlen
        simp [render_lines, bound_lines, parse_loop, getline, e1, e2, IStream.ok, this]

theorem bound_lines_eq (lines : List (Str × Str)) (nl : Bool)
    (h : nl = true ∨ ∀ l, lines.getLast? = some l → l.2 ≠ []) : bound_lines lines nl = lines := by
  induction lines with
  | nil => rfl
  | cons l rest ih =>
    obtain ⟨k, v⟩ := l
    cases rest with
    | nil =>
      rcases h with h | h
      · simp [bound_lines, h]
      · have := h (k, v) rfl
        simp only [bound_lines]
        cases v with
        | nil => exact absurd rfl this
        | cons c cs => simp
    | cons l2 rest2 =>
      simp only [bound_lines]
      rw [ih]
      rcases h with h | h
      · exact Or.inl h
      · exact Or.inr (fun l hl => h l (by simpa [List.getLast?_cons_cons] using hl))

theorem bound_lines_drop (lines : List (Str × Str))
    (h : ∃ l, lines.getLast? = some l ∧ l.2 = []) : bound_lines lines false = lines.dropLast := by
  induction lines with
  | nil => rfl
  | cons l rest ih =>
    obtain ⟨k, v⟩ := l
    cases rest with
    | nil =>
      obtain ⟨l, hl, hv⟩ := h
      simp at hl
      subst hl
      simp at hv
      simp [bound_lines, hv]
    | cons l2 rest2 =>
      simp only [bound_lines, List.dropLast_cons₂]
      rw [ih]
      obtain ⟨l, hl, hv⟩ := h
      exact ⟨l, by simpa [List.getLast?_cons_cons] using hl, hv⟩

theorem first_remainder_ne_none (lines : List (Str × Str)) (key : Str) :
    first_remainder lines key ≠ none ↔ ∃ l ∈ lines, l.1 = key := by
  unfold first_remainder
  induction lines with
  | nil => simp
  | cons l rest ih =>
    by_cases hk : l.1 = key
    · simp [List.find?, hk]
    · simp [List.find?, hk] at ih ⊢

theorem parse_stats_render (lines : List (Str × Str)) (nl : Bool)
    (h : ∀ l ∈ lines, line_ok l) (key : Str) :
    host_stats_map.at (parse_stats (render_lines lines nl)) key
      = first_remainder (bound_lines lines nl) key := by
  unfold parse_stats
  rw [parse_loop_render lines nl h _ [] [] [] (Nat.lt_succ_self _), at_foldl_emplace]
  rfl

/-- C5 (amended): for a payload made of lines `key:remainder` separated by
newlines, `parse_stats` binds exactly the keys of the lines, each to the
remainder of the first line bearing it, provided the last line is terminated
by a newline or has a non-empty remainder; a last line with an empty remainder
and no newline after it is not bound. -/
theorem parse_stats_first_remainder (lines : List (Str × Str)) (nl : Bool)
    (h : ∀ l ∈ lines, line_ok l) :
    ((nl = true ∨ ∀ l, lines.getLast? = some l → l.2 ≠ []) →
      ∀ key, host_stats_map.at (parse_stats (render_lines lines nl)) key = first_remainder lines key
        ∧ (host_stats_map.at (parse_stats (render_lines lines nl)) key ≠ none
            ↔ ∃ l ∈ lines, l.1 = key)) ∧
    ((nl = false ∧ ∃ l, lines.getLast? = some l ∧ l.2 = []) →
      ∀ key, host_stats_map.at (parse_stats (render_lines lines nl)) key
        = first_remainder lines.dropLast key) := by
  constructor
  · intro hl key
    have e := parse_stats_render lines nl h key
    rw [bound_lines_eq lines nl hl] at e
    exact ⟨e, by rw [e]; exact first_remainder_ne_none lines key⟩
  · rintro ⟨hnl, hl⟩ key
    subst hnl
    have e := parse_stats_render lines false h key
    rw [bound_lines_drop lines hl] at e
    exact e

/-- An instance: three lines with a repeated key, and a payload whose last line has an empty remainder and no newline. -/
theorem parse_stats_first_remainder_witness :
    host_stats_map.at (parse_stats "IP:10.0.0.1\nMaxJobs:4\nIP:x".toList) "IP".toList
        = some "10.0.0.1".toList
      ∧ host_stats_map.at (parse_stats "IP:1\nMaxJobs:".toList) "MaxJobs".toList = none :=
  ⟨((parse_stats_first_remainder
      [("IP".toList, "10.0.0.1".toList), ("MaxJobs".toList, "4".toList), ("IP".toList, "x".toList)]
      false (by simp [line_ok])).1 (Or.inr (by simp)) "IP".toList).1,
   (parse_stats_first_remainder [("IP".toList, "1".toList), ("MaxJobs".toList, [])]
      false (by simp [line_ok])).2 ⟨rfl, _, rfl, rfl⟩ "MaxJobs".toList⟩

/-- C5 (as stated) fails: the payload `K:` is one line with a colon, its
prefix is `K` and its remainder is empty, yet `parse_stats` binds nothing. -/
theorem parse_stats_unterminated_empty :
    render_lines [("K".toList, [])] false = "K:".toList
      ∧ line_ok ("K".toList, [])
      ∧ first_remainder [("K".toList, [])] "K".toList = some []
      ∧ host_stats_map.at (parse_stats "K:".toList) "K".toList = none := by
  refine ⟨by decide, by simp [line_ok], by decide, by decide⟩

theorem isdigit_plain (c : Char) (h : isdigit c = true) :
    isspace c = false ∧ c ≠ '-' ∧ c ≠ '+' := by
  refine ⟨?_, ?_, ?_⟩
  · simp only [isspace, Bool.or_eq_false_iff, decide_eq_false_iff_not]
    refine ⟨⟨⟨⟨⟨?_, ?_⟩, ?_⟩, ?_⟩, ?_⟩, ?_⟩ <;> (rintro rfl; revert h; decide)
  · rintro rfl; revert h; decide
  · rintro rfl; revert h; decide

theorem stoul_decimal (v : Str) (hv : is_decimal v = true) (hu : digits_value v ≤ ULONG_MAX) :
    stoul v = Except.ok (digits_value v) := by
  cases v with
  | nil => simp [is_decimal] at hv
  | cons c cs =>
    simp only [is_decimal, List.isEmpty_cons, Bool.not_false, Bool.true_and] at hv
    have hall : ∀ x ∈ c :: cs, isdigit x = true := by simpa using hv
    have hc : isdigit c = true := hall c (List.mem_cons_self _ _)
    obtain ⟨h1, h2, h3⟩ := isdigit_plain c hc
    have hd : (c :: cs).dropWhile isspace = c :: cs := by simp [List.dropWhile, h1]
    have hs : strip_sign (c :: cs) = (false, c :: cs) := by
      unfold strip_sign
      rw [hd]
      split
      · rename_i r e; exact absurd (List.cons.inj e).1 h2
      · rename_i r e; exact absurd (List.cons.inj e).1 h3
      · rfl
    have ht : (c :: cs).takeWhile isdigit = c :: cs := List.takeWhile_eq_self_iff.mpr hall
    unfold stoul
    simp only [hs, ht]
    simp [Nat.not_lt.mpr hu]

theorem wrap32_id (x : Int) (h0 : 0 ≤ x) (h1 : x ≤ INT_MAX) : wrap32 x = x := by
  unfold wrap32
  unfold INT_MAX at h1
  norm_num at h1 ⊢
  omega

theorem handle_known (p : Str) (s : Sys) (ip : Str)
    (h : host_stats_map.at (parse_stats p) KEY_IP = some ip) (hk : ip ∈ s.known_ips) :
    handle_host_stats p s = Res.ret () s := by
  simp [handle_host_stats, h, hk]

theorem carried_some (p : Str) (ip : Str) (n : Nat) (h : carried p = some (ip, n)) :
    host_stats_map.at (parse_stats p) KEY_IP = some ip
      ∧ ∃ v, host_stats_map.at (parse_stats p) KEY_MAXJOBS = some v
          ∧ is_decimal v = true ∧ digits_value v = n := by
  unfold carried at h
  split at h
  · rename_i ip' v h1 h2
    by_cases hd : is_decimal v = true
    · simp only [hd, if_true, Option.some.injEq, Prod.mk.injEq] at h
      exact ⟨by rw [h1, h.1], v, h2, hd, h.2⟩
    · simp [hd] at h
  · simp at h

theorem handle_new (p : Str) (s : Sys) (ip : Str) (n : Nat) (h : carried p = some (ip, n))
    (hk : ip ∉ s.known_ips) (h0 : 0 ≤ s.total_jobs_available)
    (hb : s.total_jobs_available + (n : Int) ≤ INT_MAX) :
    handle_host_stats p s = Res.ret ()
      { s with total_jobs_available := s.total_jobs_available + n,
               known_ips := s.known_ips ++ [ip] } := by
  obtain ⟨h1, v, h2, hd, hn⟩ := carried_some p ip n h
  have hn' : (n : Int) ≤ INT_MAX := by omega
  have hu : digits_value v ≤ ULONG_MAX := by
    rw [hn]; unfold INT_MAX at hn'; unfold ULONG_MAX; norm_num at hn' ⊢; omega
  have hs := stoul_decimal v hd hu
  rw [hn] at hs
  simp only [handle_host_stats, h1, h2, hk, if_false, hs]
  rw [wrap32_id n (by omega) hn', wrap32_id _ (by omega) hb]

theorem first_max_jobs_cons_ne (r : Str × Nat) (recs : List (Str × Nat)) (ip : Str)
    (h : r.1 ≠ ip) : first_max_jobs (r :: recs) ip = first_max_jobs recs ip := by
  simp [first_max_jobs, List.find?, h]

theorem first_max_jobs_cons_self (ip : Str) (n : Nat) (recs : List (Str × Nat)) :
    first_max_jobs ((ip, n) :: recs) ip = n := by
  simp [first_max_jobs, List.find?]

theorem unseen_total_known (ip : Str) (n : Nat) (recs : List (Str × Nat)) (known : List Str)
    (hk : ip ∈ known) : unseen_total ((ip, n) :: recs) known = unseen_total recs known := by
  unfold unseen_total
  rw [List.map_cons, List.toFinset_cons,
    Finset.insert_sdiff_of_mem _ (List.mem_toFinset.mpr hk)]
  refine Finset.sum_congr rfl (fun x hx => ?_)
  have hx' : x ∉ known := by
    have := (Finset.mem_sdiff.mp hx).2
    simpa using this
  exact first_max_jobs_cons_ne _ _ _ (fun e => hx' (by rw [← e]; exact hk))

theorem unseen_total_new (ip : Str) (n : Nat) (recs : List (Str × Nat)) (known : List Str)
    (hk : ip ∉ known) :
    unseen_total ((ip, n) :: recs) known = n + unseen_total recs (known ++ [ip]) := by
  unfold unseen_total
  have key : (((ip, n) :: recs).map (fun r => r.1)).toFinset \ known.toFinset
      = insert ip ((recs.map (fun r => r.1)).toFinset \ (known ++ [ip]).toFinset) := by
    ext x
    by_cases hx : x = ip
    · subst hx; simp [hk]
    · simp [hx]
  have hni : ip ∉ (recs.map (fun r => r.1)).toFinset \ (known ++ [ip]).toFinset := by simp
  rw [key, Finset.sum_insert hni, first_max_jobs_cons_self]
  congr 1
  refine Finset.sum_congr rfl (fun x hx => ?_)
  have hx' : x ≠ ip := by
    intro e
    rw [e] at hx
    exact hni hx
  exact first_max_jobs_cons_ne _ _ _ (fun e => hx' e.symm)

theorem handle_all_total (ps : List Str) (recs : List (Str × Nat))
    (h : List.Forall₂ (fun p r => carried p = some r) ps recs) :
    ∀ s : Sys, 0 ≤ s.total_jobs_available →
      s.total_jobs_available + (unseen_total recs s.known_ips : Int) ≤ INT_MAX →
      ∃ s1, handle_all ps s = Res.ret () s1
        ∧ s1.total_jobs_available = s.total_jobs_available + (unseen_total recs s.known_ips : Int) := by
  induction h with
  | nil =>
    intro s _ _
    exact ⟨s, rfl, by simp [unseen_total]⟩
  | @cons p r ps recs hpr _ ih =>
    intro s h0 hb
    obtain ⟨ip, n⟩ := r
    by_cases hk : ip ∈ s.known_ips
    · have e := handle_known p s ip (carried_some p ip n hpr).1 hk
      rw [unseen_total_known ip n recs _ hk] at hb ⊢
      obtain ⟨s1, hs1, ht⟩ := ih s h0 hb
      exact ⟨s1, by simp [handle_all, e, Res.bind, hs1], ht⟩
    · rw [unseen_total_new ip n recs _ hk] at hb ⊢
      push_cast at hb ⊢
      have e := handle_new p s ip n hpr hk h0 (by omega)
      obtain ⟨s1, hs1, ht⟩ := ih
        { s with total_jobs_available := s.total_jobs_available + n,
                 known_ips := s.known_ips ++ [ip] } (by simp; omega) (by simp; omega)
      refine ⟨s1, by simp [handle_all, e, Res.bind, hs1], ?_⟩
      rw [ht]
      simp
      omega

/-- C1: for every sequence of stats payloads that each carry an `IP` and a
decimal `MaxJobs`, handled from the fresh state, when no partial sum of the
first-seen values exceeds `INT_MAX`, every payload is handled normally and the
final `total_jobs_available` is the sum over the distinct IPs of the `MaxJobs`
of the first payload bearing each; a payload whose IP is already known leaves
the state as it was. -/
theorem total_is_first_seen_sum (ps : List Str) (recs : List (Str × Nat))
    (h : List.Forall₂ (fun p r => carried p = some r) ps recs)
    (hsum : ∀ k, (first_seen_total (recs.take k) : Int) ≤ INT_MAX) :
    (∃ s1, handle_all ps Sys.fresh = Res.ret () s1
        ∧ s1.total_jobs_available = (first_seen_total recs : Int))
      ∧ ∀ (s : Sys) (p : Str) (ip : Str), host_stats_map.at (parse_stats p) KEY_IP = some ip →
          ip ∈ s.known_ips → handle_host_stats p s = Res.ret () s := by
  refine ⟨?_, fun s p ip hp hk => handle_known p s ip hp hk⟩
  have hu : unseen_total recs Sys.fresh.known_ips = first_seen_total recs := by
    simp [unseen_total, first_seen_total, Sys.fresh]
  have hb := hsum recs.length
  rw [List.take_length] at hb
  obtain ⟨s1, hs1, ht⟩ := handle_all_total ps recs h Sys.fresh (by simp [Sys.fresh])
    (by rw [hu]; simpa [Sys.fresh] using hb)
  exact ⟨s1, hs1, by rw [ht, hu]; simp [Sys.fresh]⟩

/-- An instance: the reports (10.0.0.1, 4), (10.0.0.2, 8), (10.0.0.1, 99) give
12, and a further report from 10.0.0.1 leaves a session that knows it as it was. -/
theorem total_is_first_seen_sum_witness :
    (∃ s1, handle_all ["IP:10.0.0.1\nMaxJobs:4".toList, "IP:10.0.0.2\nMaxJobs:8".toList,
              "IP:10.0.0.1\nMaxJobs:99".toList] Sys.fresh = Res.ret () s1
        ∧ s1.total_jobs_available = 12)
      ∧ handle_host_stats "IP:10.0.0.1\nMaxJobs:99".toList sys_seven = Res.ret () sys_seven := by
  have h := total_is_first_seen_sum
    ["IP:10.0.0.1\nMaxJobs:4".toList, "IP:10.0.0.2\nMaxJobs:8".toList,
      "IP:10.0.0.1\nMaxJobs:99".toList]
    [("10.0.0.1".toList, 4), ("10.0.0.2".toList, 8), ("10.0.0.1".toList, 99)]
    (by
      refine List.Forall₂.cons (by decide) (List.Forall₂.cons (by decide)
        (List.Forall₂.cons (by decide) List.Forall₂.nil)))
    (by
      intro k
      rcases k with _ | _ | _ | k
      · decide
      · decide
      · decide
      · rw [List.take_of_length_le (by simp)]
        decide)
  obtain ⟨⟨s1, h1, h2⟩, h3⟩ := h
  exact ⟨⟨s1, h1, by rw [h2]; decide⟩,
    h3 sys_seven "IP:10.0.0.1\nMaxJobs:99".toList "10.0.0.1".toList (by decide) (by decide)⟩

theorem probes_started_append (a b : List Event) :
    probes_started (a ++ b) = probes_started a ++ probes_started b := by
  induction a with
  | nil => rfl
  | cons e rest ih => cases e <;> simp [probes_started, ih]

theorem connections_got_append (a b : List Event) :
    connections_got (a ++ b) = connections_got a ++ connections_got b := by
  induction a with
  | nil => rfl
  | cons e rest ih =>
    cases e with
    | try_get_scheduler name got => cases got <;> simp [connections_got, ih]
    | _ => simp [connections_got, ih]

theorem reset_scheduler_none (env : Env) (name : Str) (s : Sys) (h : s.scheduler = none) :
    reset_scheduler env name s =
      { s with events := s.events ++ [Event.try_get_scheduler name (env.try_get_scheduler name s.tick)],
               tick := s.tick + 1,
               scheduler := (env.try_get_scheduler name s.tick).map
                 (fun fd => { fd := fd, bulk := false }) } := by
  simp [reset_scheduler, Sys.step, h]

theorem fdin_snd (env : Env) (fd d : Int) (s : Sys) :
    (fdin env fd d s).2 = s.step (Event.poll fd d) := by
  unfold fdin
  dsimp only
  split
  · rfl
  · split <;> rfl

theorem probe_wait_post_chain (env : Env) (name : Str) (s X : Sys) (r : Res Unit)
    (pre : List Event) (hs : s.scheduler = none) (hX : X.scheduler = none)
    (he : X.events = s.events ++ pre) (hp : probes_started pre = [])
    (hc : connections_got pre = []) (h1 : X.stdout = s.stdout)
    (h2 : X.network_name = s.network_name) (h3 : X.scheduler_name = s.scheduler_name)
    (h4 : X.state = s.state) (h5 : X.total_jobs_available = s.total_jobs_available)
    (h6 : X.known_ips = s.known_ips)
    (h : probe_wait_post name (reset_scheduler env name X) r) : probe_wait_post name s r := by
  obtain ⟨added, e1, e2, e3, e4, e5, e6, e7, e8, e9, e10⟩ := h
  rw [reset_scheduler_none env name X hX] at e1 e3 e4 e5 e6 e7 e8 e10
  simp only at e1 e3 e4 e5 e6 e7 e8
  refine ⟨pre ++ [Event.try_get_scheduler name (env.try_get_scheduler name X.tick)] ++ added,
    by rw [e1, he]; simp, by simp [probes_started_append, hp, e2, probes_started],
    by rw [e3, h1], by rw [e4, h2], by rw [e5, h3], by rw [e6, h4], by rw [e7, h5],
    by rw [e8, h6], e9, ?_⟩
  intro s1 hr
  refine ⟨fun h => by simp [hs] at h, fun _ => ?_⟩
  obtain ⟨k1, k2⟩ := e10 s1 hr
  cases hg : env.try_get_scheduler name X.tick with
  | none =>
    rw [hg] at k2
    rcases k2 (by simp) with ⟨q1, q2⟩ | ⟨fd, q1, q2⟩
    · exact Or.inl ⟨q1, by simp [connections_got_append, hc, q2, connections_got]⟩
    · exact Or.inr ⟨fd, q1, by simp [connections_got_append, hc, q2, connections_got]⟩
  | some fd =>
    rw [hg] at k1 e1
    have hs1 := k1 (by simp)
    have hadd : added = [] := by
      rw [hr] at e1
      simp only [Res.sys] at e1
      rw [hs1] at e1
      simpa using e1
    refine Or.inr ⟨fd, by rw [hs1]; rfl, ?_⟩
    simp [connections_got_append, hc, hadd, connections_got]

theorem probe_wait_spec (env : Env) (name : Str) :
    ∀ (fuel : Nat) (s : Sys), probe_wait_post name s (probe_wait env name fuel s) := by
  intro fuel
  induction fuel with
  | zero =>
    intro s
    exact ⟨[], by simp [probe_wait, Res.sys], rfl, rfl, rfl, rfl, rfl, rfl, rfl,
      by simp [probe_wait], by simp [probe_wait]⟩
  | succ fuel ih =>
    intro s
    unfold probe_wait
    split
    · rename_i hs
      refine ⟨[], by simp [Res.sys], rfl, rfl, rfl, rfl, rfl, rfl, rfl, by simp, ?_⟩
      intro s1 e
      simp at e
      subst e
      exact ⟨fun _ => rfl, fun h => by simp [h] at hs⟩
    · rename_i hs
      have hn : s.scheduler = none := by
        cases h : s.scheduler with
        | none => rfl
        | some ch => simp [h] at hs
      split
      · refine ⟨[], by simp [Res.sys, Sys.next], rfl, rfl, rfl, rfl, rfl, rfl, rfl, by simp, ?_⟩
        intro s1 e
        simp at e
        subst e
        exact ⟨fun h => by simp [hn] at h, fun _ => Or.inl ⟨by simp [Sys.next, hn], rfl⟩⟩
      · rename_i hto
        dsimp only
        split
        · rename_i hfd
          split
          · refine ⟨[Event.poll (env.listen_fd name s.next.next.tick) 3000,
                Event.perror "waiting for socket".toList], ?_, rfl, ?_, ?_, ?_, ?_, ?_, ?_,
              by simp, by simp⟩ <;>
              simp [Res.sys, Sys.log, fdin_snd, Sys.step, Sys.next]
          · exact probe_wait_post_chain env name s
              (fdin env (env.listen_fd name s.next.next.tick) 3000 s.next.next.next).2 _
              [Event.poll (env.listen_fd name s.next.next.tick) 3000] hn
              (by simp [fdin_snd, Sys.step, Sys.next, hn])
              (by simp [fdin_snd, Sys.step, Sys.next]) rfl rfl
              (by simp [fdin_snd, Sys.step, Sys.next])
              (by simp [fdin_snd, Sys.step, Sys.next])
              (by simp [fdin_snd, Sys.step, Sys.next])
              (by simp [fdin_snd, Sys.step, Sys.next])
              (by simp [fdin_snd, Sys.step, Sys.next])
              (by simp [fdin_snd, Sys.step, Sys.next]) (ih _)
        · exact probe_wait_post_chain env name s (s.next.next.log (Event.usleep 50000)) _
            [Event.usleep 50000] hn
            (by simp [Sys.log, Sys.next, hn]) (by simp [Sys.log, Sys.next]) rfl rfl
            rfl rfl rfl rfl rfl rfl (ih _)

theorem probe_first_spec (env : Env) (name : Str) (fuel : Nat) (s : Sys)
    (hs : s.scheduler = none) :
    probe_wait_post name (s.log (Event.discover name))
      (probe_wait env name fuel (reset_scheduler env name (s.log (Event.discover name)))) :=
  probe_wait_post_chain env name _ (s.log (Event.discover name)) _ [] (by simp [Sys.log, hs])
    (by simp [Sys.log, hs]) (by simp) rfl rfl rfl rfl rfl rfl rfl rfl (probe_wait_spec env name fuel _)

theorem adopt_fields (env : Env) (name : Str) (ch : MsgChannel) (s : Sys) :
    (adopt env name ch s).events = s.events ∧ (adopt env name ch s).stdout = s.stdout
      ∧ (adopt env name ch s).total_jobs_available = s.total_jobs_available
      ∧ (adopt env name ch s).known_ips = s.known_ips
      ∧ (adopt env name ch s).scheduler = some { fd := ch.fd, bulk := true }
      ∧ (adopt env name ch s).state = monitor_state.ONLINE
      ∧ (adopt env name ch s).network_name = env.networkName name s.tick
      ∧ (adopt env name ch s).scheduler_name = env.schedulerName name (s.tick + 1)
      ∧ (adopt env name ch s).tick = s.tick + 2 :=
  ⟨rfl, rfl, rfl, rfl, rfl, rfl, rfl, rfl, rfl⟩

theorem probes_started_discover (name : Str) (added rest : List Event)
    (h : probes_started added = []) :
    probes_started ([Event.discover name] ++ added ++ rest) = name :: probes_started rest := by
  simp [probes_started_append, probes_started, h]

theorem probe_names_spec (env : Env) (fuel : Nat) :
    ∀ (names : List Str) (s : Sys), s.scheduler = none →
      probe_names_post env names s (probe_names env fuel names s) := by
  intro names
  induction names with
  | nil =>
    intro s hs
    refine ⟨[], by simp [probe_names, Res.sys], by simp [probes_started], rfl, rfl, rfl,
      by simp [probe_names], ?_, by simp [probe_names]⟩
    intro s1 e
    simp [probe_names] at e
    subst e
    exact ⟨rfl, rfl, hs, rfl⟩
  | cons name rest ih =>
    intro s hs
    obtain ⟨added, e1, e2, e3, e4, e5, e6, e7, e8, e9, e10⟩ := probe_first_spec env name fuel s hs
    unfold probe_names
    dsimp only
    cases hr : probe_wait env name fuel (reset_scheduler env name (s.log (Event.discover name))) with
    | ret u s2 =>
      rw [hr] at e1 e3 e4 e5 e6 e7 e8
      simp only [Res.sys, Sys.log] at e1 e3 e4 e5 e6 e7 e8
      have k := (e10 s2 hr).2 (by simp [Sys.log, hs])
      simp only [Res.bind]
      rcases k with ⟨k1, k2⟩ | ⟨fd, k1, k2⟩
      · rw [k1]
        dsimp only
        obtain ⟨added2, f1, f2, f3, f4, f5, f6, f7, f8⟩ := ih s2 k1
        refine ⟨[Event.discover name] ++ added ++ added2, by rw [f1, e1]; simp, ?_,
          by rw [f3, e3], by rw [f4, e7], by rw [f5, e8], f6, ?_, ?_⟩
        · rw [probes_started_discover name added added2 e2]
          exact (List.prefix_cons_inj name).mpr f2
        · intro s1 h
          obtain ⟨g1, g2, g3, g4⟩ := f7 s1 h
          refine ⟨by simp [probes_started_append, probes_started, e2, g1],
            by simp [connections_got_append, connections_got, k2, g2], g3, by rw [g4, e4]⟩
        · intro s1 h
          obtain ⟨pre, nm, post, fd, g1, g2, g3, g4, g5, g6, g7⟩ := f8 s1 h
          exact ⟨name :: pre, nm, post, fd, by rw [g1]; rfl,
            by simp [probes_started_append, probes_started, e2, g2],
            by simp [connections_got_append, connections_got, k2, g3], g4, g5, g6, g7⟩
      · rw [k1]
        dsimp only
        obtain ⟨a1, a2, a3, a4, a5, a6, a7, a8, a9⟩ :=
          adopt_fields env name { fd := fd, bulk := false } s2
        have hp := probes_started_discover name added [] e2
        rw [List.append_nil] at hp
        refine ⟨[Event.discover name] ++ added,
          by simp only [Res.sys]; rw [a1, e1, List.append_assoc], ?_,
          by simp only [Res.sys]; rw [a2, e3], by simp only [Res.sys]; rw [a3, e7],
          by simp only [Res.sys]; rw [a4, e8], by simp, by simp, ?_⟩
        · rw [hp]
          exact (List.prefix_cons_inj name).mpr ( List.nil_prefix)
        · intro s1 h
          simp only [Res.ret.injEq, true_and] at h
          subst h
          refine ⟨[], name, rest, fd, rfl, hp,
            by simp [connections_got_append, connections_got, k2], a5, a6, ?_, ?_⟩
          · rw [a7, a9]; rfl
          · rw [a8, a9]; rfl
    | exit c s2 =>
      rw [hr] at e1 e3 e4 e5 e6 e7 e8
      simp only [Res.sys, Sys.log] at e1 e3 e4 e5 e6 e7 e8
      refine ⟨[Event.discover name] ++ added, by simp [Res.sys, Res.bind, e1], ?_,
        by simp [Res.sys, Res.bind, e3], by simp [Res.sys, Res.bind, e7],
        by simp [Res.sys, Res.bind, e8], ?_, by simp [Res.bind], by simp [Res.bind]⟩
      · have hp := probes_started_discover name added [] e2
        rw [List.append_nil] at hp
        rw [hp]
        exact (List.prefix_cons_inj name).mpr ( List.nil_prefix)
      · intro c1 s1 h
        simp only [Res.bind, Res.exit.injEq] at h
        rw [← h.1]
        exact e9 c s2 hr
    | throw e s2 =>
      rw [hr] at e1 e3 e4 e5 e6 e7 e8
      simp only [Res.sys, Sys.log] at e1 e3 e4 e5 e6 e7 e8
      refine ⟨[Event.discover name] ++ added, by simp [Res.sys, Res.bind, e1], ?_,
        by simp [Res.sys, Res.bind, e3], by simp [Res.sys, Res.bind, e7],
        by simp [Res.sys, Res.bind, e8], by simp [Res.bind], by simp [Res.bind],
        by simp [Res.bind]⟩
      have hp := probes_started_discover name added [] e2
      rw [List.append_nil] at hp
      rw [hp]
      exact (List.prefix_cons_inj name).mpr ( List.nil_prefix)
    | null_deref s2 =>
      rw [hr] at e1 e3 e4 e5 e6 e7 e8
      simp only [Res.sys, Sys.log] at e1 e3 e4 e5 e6 e7 e8
      refine ⟨[Event.discover name] ++ added, by simp [Res.sys, Res.bind, e1], ?_,
        by simp [Res.sys, Res.bind, e3], by simp [Res.sys, Res.bind, e7],
        by simp [Res.sys, Res.bind, e8], by simp [Res.bind], by simp [Res.bind],
        by simp [Res.bind]⟩
      have hp := probes_started_discover name added [] e2
      rw [List.append_nil] at hp
      rw [hp]
      exact (List.prefix_cons_inj name).mpr ( List.nil_prefix)
    | out_of_fuel s2 =>
      rw [hr] at e1 e3 e4 e5 e6 e7 e8
      simp only [Res.sys, Sys.log] at e1 e3 e4 e5 e6 e7 e8
      refine ⟨[Event.discover name] ++ added, by simp [Res.sys, Res.bind, e1], ?_,
        by simp [Res.sys, Res.bind, e3], by simp [Res.sys, Res.bind, e7],
        by simp [Res.sys, Res.bind, e8], by simp [Res.bind], by simp [Res.bind],
        by simp [Res.bind]⟩
      have hp := probes_started_discover name added [] e2
      rw [List.append_nil] at hp
      rw [hp]
      exact (List.prefix_cons_inj name).mpr ( List.nil_prefix)

theorem candidate_names_congr (env : Env) (s s1 : Sys) (h : s1.network_name = s.network_name) :
    candidate_names env s1 = candidate_names env s := by
  simp [candidate_names, h]

theorem check_scheduler_loop_spec (env : Env) :
    ∀ (fuel : Nat) (s : Sys), check_loop_post env s (check_scheduler_loop env fuel s) := by
  intro fuel
  induction fuel with
  | zero =>
    intro s
    exact ⟨[], by simp [check_scheduler_loop, Res.sys], rfl, rfl, rfl,
      by simp [check_scheduler_loop], by simp [check_scheduler_loop]⟩
  | succ fuel ih =>
    intro s
    unfold check_scheduler_loop
    split
    · rename_i hs
      refine ⟨[], by simp [Res.sys], rfl, rfl, rfl, by simp, ?_⟩
      intro s1 e
      simp at e
      subst e
      exact ⟨fun _ => rfl, fun h => by simp [h] at hs⟩
    · rename_i hs
      have hn : s.scheduler = none := by
        cases h : s.scheduler with
        | none => rfl
        | some ch => simp [h] at hs
      obtain ⟨added, e1, e2, e3, e4, e5, e6, e7, e8⟩ :=
        probe_names_spec env fuel (candidate_names env s) s hn
      cases hr : probe_names env fuel (candidate_names env s) s with
      | ret found s2 =>
        rw [hr] at e1 e3 e4 e5
        simp only [Res.sys] at e1 e3 e4 e5
        simp only [Res.bind]
        cases found with
        | true =>
          simp only [if_true]
          refine ⟨added, e1, e3, e4, e5, by simp, ?_⟩
          intro s1 h
          simp only [Res.ret.injEq, true_and] at h
          subst h
          refine ⟨fun h => by simp [hn] at h, fun _ => ?_⟩
          obtain ⟨pre, name, post, fd, g1, g2, g3, g4, g5, g6, g7⟩ := e8 s2 hr
          exact ⟨0, pre, name, post, fd, g1, by simp [repeat_names, g2], g3, g4, g5, g6, g7⟩
        | false =>
          simp only [Bool.false_eq_true, if_false]
          obtain ⟨g1, g2, g3, g4⟩ := e7 s2 hr
          obtain ⟨added2, f1, f2, f3, f4, f5, f6⟩ := ih s2
          refine ⟨added ++ added2, by rw [f1, e1, List.append_assoc], by rw [f2, e3],
            by rw [f3, e4], by rw [f4, e5], f5, ?_⟩
          intro s1 h
          refine ⟨fun h => by simp [hn] at h, fun _ => ?_⟩
          obtain ⟨k, pre, name, post, fd, q1, q2, q3, q4, q5, q6, q7⟩ := (f6 s1 h).2 g3
          rw [candidate_names_congr env s s2 g4] at q1 q2
          refine ⟨k + 1, pre, name, post, fd, q1, ?_, ?_, q4, q5, q6, q7⟩
          · rw [probes_started_append, g1, q2, repeat_names, List.append_assoc]
          · rw [connections_got_append, g2, q3]
            rfl
      | exit c s2 =>
        rw [hr] at e1 e3 e4 e5
        simp only [Res.sys] at e1 e3 e4 e5
        refine ⟨added, by simp [Res.bind, Res.sys, e1], by simp [Res.bind, Res.sys, e3],
          by simp [Res.bind, Res.sys, e4], by simp [Res.bind, Res.sys, e5], ?_,
          by simp [Res.bind]⟩
        intro c1 s1 h
        simp only [Res.bind, Res.exit.injEq] at h
        rw [← h.1]
        exact e6 c s2 hr
      | throw e s2 =>
        rw [hr] at e1 e3 e4 e5
        simp only [Res.sys] at e1 e3 e4 e5
        exact ⟨added, by simp [Res.bind, Res.sys, e1], by simp [Res.bind, Res.sys, e3],
          by simp [Res.bind, Res.sys, e4], by simp [Res.bind, Res.sys, e5],
          by simp [Res.bind], by simp [Res.bind]⟩
      | null_deref s2 =>
        rw [hr] at e1 e3 e4 e5
        simp only [Res.sys] at e1 e3 e4 e5
        exact ⟨added, by simp [Res.bind, Res.sys, e1], by simp [Res.bind, Res.sys, e3],
          by simp [Res.bind, Res.sys, e4], by simp [Res.bind, Res.sys, e5],
          by simp [Res.bind], by simp [Res.bind]⟩
      | out_of_fuel s2 =>
        rw [hr] at e1 e3 e4 e5
        simp only [Res.sys] at e1 e3 e4 e5
        exact ⟨added, by simp [Res.bind, Res.sys, e1], by simp [Res.bind, Res.sys, e3],
          by simp [Res.bind, Res.sys, e4], by simp [Res.bind, Res.sys, e5],
          by simp [Res.bind], by simp [Res.bind]⟩

theorem handle_host_stats_frame (p : Str) (s : Sys) :
    (handle_host_stats p s).sys.stdout = s.stdout
      ∧ (handle_host_stats p s).sys.scheduler = s.scheduler
      ∧ (∀ c s1, handle_host_stats p s ≠ Res.exit c s1)
      ∧ (∀ s1, handle_host_stats p s ≠ Res.null_deref s1) := by
  unfold handle_host_stats
  dsimp only
  split
  · exact ⟨rfl, rfl, by simp, by simp⟩
  · split
    · exact ⟨rfl, rfl, by simp, by simp⟩
    · split
      · exact ⟨rfl, rfl, by simp, by simp⟩
      · split
        · exact ⟨rfl, rfl, by simp, by simp⟩
        · exact ⟨rfl, rfl, by simp, by simp⟩

theorem check_scheduler_held (env : Env) (fuel : Nat) (s : Sys) (h : s.scheduler.isSome = true) :
    check_scheduler env (fuel + 1) false s = Res.ret () s := by
  simp [check_scheduler, check_scheduler_loop, h]

theorem handle_activity_frame (env : Env) (fuel : Nat) (s : Sys) :
    (handle_activity env fuel s).sys.stdout = s.stdout
      ∧ (handle_activity env fuel s).sys.scheduler = s.scheduler
      ∧ (∀ c s1, handle_activity env fuel s ≠ Res.exit c s1)
      ∧ (s.scheduler.isSome = true → ∀ s1, handle_activity env fuel s ≠ Res.null_deref s1) := by
  unfold handle_activity
  cases hsch : s.scheduler with
  | none => exact ⟨rfl, by simp [Res.sys, hsch], by simp, by simp⟩
  | some ch =>
    dsimp only
    cases hm : env.get_msg s.tick with
    | none =>
      dsimp only
      cases fuel with
      | zero =>
        simp [check_scheduler, check_scheduler_loop, Res.bind, Res.sys, Sys.next, hsch]
      | succ fuel =>
        rw [check_scheduler_held env fuel s.next (by simp [Sys.next, hsch])]
        simp [Res.bind, Res.sys, Sys.next, hsch]
    | some m =>
      dsimp only
      split
      · cases hp : m.statmsg with
        | none => simp [Res.sys, Sys.next, hsch]
        | some sm =>
          dsimp only
          obtain ⟨f1, f2, f3, f4⟩ := handle_host_stats_frame sm s.next
          cases hh : handle_host_stats sm s.next with
          | ret u s2 =>
            rw [hh] at f1 f2
            simp only [Res.sys] at f1 f2
            simp [Res.bind, Res.sys, f1, f2, Sys.next, hsch]
          | exit c s2 => exact absurd hh (f3 c s2)
          | throw e s2 =>
            rw [hh] at f1 f2
            simp only [Res.sys] at f1 f2
            simp [Res.bind, Res.sys, f1, f2, Sys.next, hsch]
          | null_deref s2 => exact absurd hh (f4 s2)
          | out_of_fuel s2 =>
            rw [hh] at f1 f2
            simp only [Res.sys] at f1 f2
            simp [Res.bind, Res.sys, f1, f2, Sys.next, hsch]
      · simp [Res.sys, Sys.next, hsch]

/-- When decoding yields nothing, `handle_activity` changes only the phase
and the answer count: the connection stays, no event happens. -/
theorem handle_activity_lost (env : Env) (fuel : Nat) (s : Sys) (ch : MsgChannel)
    (hs : s.scheduler = some ch) (hg : env.get_msg s.tick = none) :
    handle_activity env (fuel + 1) s
      = Res.ret false { s.next with state := monitor_state.OFFLINE } := by
  unfold handle_activity
  rw [hs]
  dsimp only
  rw [hg]
  dsimp only
  rw [check_scheduler_held env fuel _ (by simp [Sys.next, hs])]
  rfl

/-- In the loop on one probe, with no connection, a probe that has not timed
out and has a descriptor, a `poll` that gives 0 ends the process with
`EXIT_FAILURE`. -/
theorem probe_wait_elapsed (env : Env) (name : Str) (fuel : Nat) (s : Sys)
    (hs : s.scheduler = none) (hto : env.timed_out name s.tick = false)
    (hfd : env.listen_fd name (s.tick + 1) ≠ -1)
    (hp : env.poll (env.listen_fd name (s.tick + 2)) 3000 (s.tick + 3) = 0) :
    probe_wait env name (fuel + 1) s = Res.exit EXIT_FAILURE
      { s with
        events := s.events ++ [Event.poll (env.listen_fd name (s.tick + 2)) 3000,
          Event.perror "waiting for socket".toList]
        tick := s.tick + 4 } := by
  unfold probe_wait
  simp only [hs, Option.isSome_none, Bool.false_eq_true, if_false, hto, Sys.next, hfd,
    ne_eq, not_false_eq_true, if_true, fdin, hp, Sys.step, Sys.log]
  simp

theorem drain_cond_stdout (env : Env) (s : Sys) : (drain_cond env s).2.stdout = s.stdout := by
  unfold drain_cond
  split <;> rfl

theorem drain_cond_scheduler (env : Env) (s : Sys) :
    (drain_cond env s).2.scheduler = s.scheduler := by
  unfold drain_cond
  split <;> rfl

theorem print_jobs_and_quit_post (s0 s : Sys) (h : s.stdout = s0.stdout) :
    listen_post s0 (print_jobs_and_quit s) := by
  refine ⟨by simp [print_jobs_and_quit], ?_, by simp [print_jobs_and_quit],
    by simp [print_jobs_and_quit]⟩
  intro c s1 e
  simp only [print_jobs_and_quit, Res.exit.injEq] at e
  obtain ⟨e1, e2⟩ := e
  subst e2
  exact ⟨e1.symm, by simp [h]⟩

theorem listen_drain_spec (env : Env) :
    ∀ (fuel : Nat) (s : Sys), listen_post s (listen_drain env fuel s) := by
  intro fuel
  induction fuel with
  | zero =>
    intro s
    exact ⟨by simp [listen_drain], by simp [listen_drain], by simp [listen_drain],
      by simp [listen_drain]⟩
  | succ fuel ih =>
    intro s
    unfold listen_drain
    cases hsch : s.scheduler with
    | none => exact ⟨by simp, by simp, by simp, by simp [hsch]⟩
    | some ch =>
      dsimp only
      have hc := drain_cond_stdout env s
      have hd := drain_cond_scheduler env s
      rw [hsch] at hd
      split
      · obtain ⟨f1, f2, f3, f4⟩ := handle_activity_frame env fuel (drain_cond env s).2
        cases hh : handle_activity env fuel (drain_cond env s).2 with
        | ret go s2 =>
          rw [hh] at f1 f2
          simp only [Res.sys] at f1 f2
          simp only [Res.bind]
          cases go with
          | true =>
            simp only [if_true]
            obtain ⟨g1, g2, g3, g4⟩ := ih s2
            refine ⟨fun s1 e => ?_, fun c s1 e => ?_, fun e s1 h => ?_, fun _ => ?_⟩
            · obtain ⟨q1, q2⟩ := g1 s1 e
              exact ⟨by rw [q1, f1, hc], by rw [q2, f2, hd, hsch]⟩
            · obtain ⟨q1, q2⟩ := g2 c s1 e
              exact ⟨q1, by rw [q2, f1, hc]⟩
            · rw [g3 e s1 h, f1, hc]
            · exact g4 (by rw [f2, hd]; rfl)
          | false =>
            simp only [Bool.false_eq_true, if_false]
            exact print_jobs_and_quit_post s s2 (by rw [f1, hc])
        | exit c s2 => exact absurd hh (f3 c s2)
        | throw e s2 =>
          rw [hh] at f1
          simp only [Res.sys] at f1
          refine ⟨by simp [Res.bind], by simp [Res.bind], fun e1 s1 h => ?_, by simp [Res.bind]⟩
          simp only [Res.bind, Res.throw.injEq] at h
          rw [← h.2, f1, hc]
        | null_deref s2 => exact absurd hh (f4 (by rw [hd]; rfl) s2)
        | out_of_fuel s2 =>
          exact ⟨by simp [Res.bind], by simp [Res.bind], by simp [Res.bind], by simp [Res.bind]⟩
      · refine ⟨fun s1 e => ?_, by simp, by simp, by simp⟩
        simp only [Res.ret.injEq, true_and] at e
        rw [← e]
        exact ⟨hc, hd.trans hsch.symm⟩

theorem listen_loop_spec (env : Env) (d : Int) :
    ∀ (fuel : Nat) (s : Sys),
      (∀ s1, listen_loop env d fuel s ≠ Res.ret () s1)
        ∧ listen_post s (listen_loop env d fuel s) := by
  intro fuel
  induction fuel with
  | zero =>
    intro s
    exact ⟨by simp [listen_loop], by simp [listen_loop], by simp [listen_loop],
      by simp [listen_loop], by simp [listen_loop]⟩
  | succ fuel ih =>
    intro s
    unfold listen_loop
    cases hsch : s.scheduler with
    | none => exact ⟨by simp, by simp, by simp, by simp, by simp [hsch]⟩
    | some ch =>
      dsimp only
      have hf : (fdin env ch.fd (wrap32 d) s).2.stdout = s.stdout := by
        rw [fdin_snd]; rfl
      have hfs : (fdin env ch.fd (wrap32 d) s).2.scheduler = some ch := by
        rw [fdin_snd]; exact hsch
      split
      · exact ⟨by simp [print_jobs_and_quit], print_jobs_and_quit_post s _ hf⟩
      · obtain ⟨g1, g2, g3, g4⟩ := listen_drain_spec env fuel (fdin env ch.fd (wrap32 d) s).2
        cases hh : listen_drain env fuel (fdin env ch.fd (wrap32 d) s).2 with
        | ret u s2 =>
          simp only [Res.bind]
          obtain ⟨k1, k2, k3, k4, k5⟩ := ih s2
          obtain ⟨e, es⟩ := g1 s2 hh
          refine ⟨k1, fun s1 h => absurd h (k1 s1), fun c s1 h => ?_, fun e1 s1 h => ?_,
            fun _ => k5 (by rw [es, hfs]; rfl)⟩
          · obtain ⟨q1, q2⟩ := k3 c s1 h
            exact ⟨q1, by rw [q2, e, hf]⟩
          · rw [k4 e1 s1 h, e, hf]
        | exit c s2 =>
          simp only [Res.bind]
          refine ⟨by simp, by simp, fun c1 s1 h => ?_, by simp, by simp⟩
          simp only [Res.exit.injEq] at h
          obtain ⟨q1, q2⟩ := g2 c s2 hh
          rw [← h.1, ← h.2]
          exact ⟨q1, by rw [q2, hf]⟩
        | throw e s2 =>
          simp only [Res.bind]
          refine ⟨by simp, by simp, by simp, fun e1 s1 h => ?_, by simp⟩
          simp only [Res.throw.injEq] at h
          rw [← h.2, g3 e s2 hh, hf]
        | null_deref s2 => exact absurd hh (g4 (by rw [hfs]; rfl) s2)
        | out_of_fuel s2 =>
          exact ⟨by simp [Res.bind], by simp [Res.bind], by simp [Res.bind], by simp [Res.bind],
            by simp [Res.bind]⟩

/-- C3 (amended): for every state and every stats payload that has an `IP`
key but no `MaxJobs` key, `handle_host_stats` fails with `std::out_of_range`
and leaves the state as it was when the IP is not yet known; when the IP is
already known the `MaxJobs` key is never looked up and the call completes
normally, again with the state as it was. -/
theorem missing_maxjobs (s : Sys) (p ip : Str)
    (h1 : host_stats_map.at (parse_stats p) KEY_IP = some ip)
    (h2 : host_stats_map.at (parse_stats p) KEY_MAXJOBS = none) :
    (ip ∉ s.known_ips → handle_host_stats p s = Res.throw Exn.out_of_range s)
      ∧ (ip ∈ s.known_ips → handle_host_stats p s = Res.ret () s) := by
  constructor
  · intro hk
    simp only [handle_host_stats, h1, h2, hk, if_false]
  · intro hk
    exact handle_known p s ip h1 hk

/-- An instance: a report without `MaxJobs` from a new host and from a known host. -/
theorem missing_maxjobs_witness :
    handle_host_stats "IP:10.0.0.9\nLoad:3".toList sys_seven
        = Res.throw Exn.out_of_range sys_seven
      ∧ handle_host_stats "IP:10.0.0.1\nLoad:3".toList sys_seven = Res.ret () sys_seven :=
  ⟨(missing_maxjobs sys_seven "IP:10.0.0.9\nLoad:3".toList "10.0.0.9".toList
      (by decide) (by decide)).1 (by decide),
   (missing_maxjobs sys_seven "IP:10.0.0.1\nLoad:3".toList "10.0.0.1".toList
      (by decide) (by decide)).2 (by decide)⟩

/-- C3 (as stated) fails: a report without `MaxJobs` from an IP that is
already known completes normally. -/
theorem missing_maxjobs_duplicate_accepted :
    host_stats_map.at (parse_stats "IP:10.0.0.1".toList) KEY_IP = some "10.0.0.1".toList
      ∧ host_stats_map.at (parse_stats "IP:10.0.0.1".toList) KEY_MAXJOBS = none
      ∧ "10.0.0.1".toList ∈ sys_seven.known_ips
      ∧ handle_host_stats "IP:10.0.0.1".toList sys_seven = Res.ret () sys_seven := by
  decide

/-- C4 (amended): for every state and every stats payload with a not-yet-seen
IP, `handle_host_stats` fails for the whole message, leaving the state as it
was, exactly when `std::stoul` rejects the `MaxJobs` value: when no decimal
digit follows its leading white space and optional sign
(`std::invalid_argument`), or when the digits found there exceed `ULONG_MAX`
(`std::out_of_range`).  Otherwise the message is accepted: the number read
from the leading digits is added (converted to `int`) and the IP is recorded. -/
theorem maxjobs_rejected_iff (s : Sys) (p ip v : Str)
    (h1 : host_stats_map.at (parse_stats p) KEY_IP = some ip) (hk : ip ∉ s.known_ips)
    (h2 : host_stats_map.at (parse_stats p) KEY_MAXJOBS = some v) :
    ((strip_sign v).2.takeWhile isdigit = [] →
        handle_host_stats p s = Res.throw Exn.invalid_argument s)
      ∧ ((strip_sign v).2.takeWhile isdigit ≠ [] →
          ULONG_MAX < digits_value ((strip_sign v).2.takeWhile isdigit) →
          handle_host_stats p s = Res.throw Exn.out_of_range s)
      ∧ ((strip_sign v).2.takeWhile isdigit ≠ [] →
          digits_value ((strip_sign v).2.takeWhile isdigit) ≤ ULONG_MAX →
          ∃ n, stoul v = Except.ok n ∧ handle_host_stats p s = Res.ret ()
            { s with total_jobs_available := wrap32 (s.total_jobs_available + wrap32 n),
                     known_ips := s.known_ips ++ [ip] }) := by
  refine ⟨fun hd => ?_, fun hd hu => ?_, fun hd hu => ?_⟩
  · have hs : stoul v = Except.error Exn.invalid_argument := by
      simp [stoul, hd]
    simp only [handle_host_stats, h1, h2, hk, if_false, hs]
  · have hs : stoul v = Except.error Exn.out_of_range := by
      unfold stoul
      simp [hd, hu]
    simp only [handle_host_stats, h1, h2, hk, if_false, hs]
  · have hu' : ¬ ULONG_MAX < digits_value ((strip_sign v).2.takeWhile isdigit) :=
      Nat.not_lt.mpr hu
    by_cases hneg : (strip_sign v).1 = true
    · have hs : stoul v = Except.ok
          ((2 ^ 64 - digits_value ((strip_sign v).2.takeWhile isdigit)) % 2 ^ 64) := by
        unfold stoul
        simp [hd, hu', hneg]
      exact ⟨_, hs, by simp only [handle_host_stats, h1, h2, hk, if_false, hs]⟩
    · have hs : stoul v = Except.ok (digits_value ((strip_sign v).2.takeWhile isdigit)) := by
        unfold stoul
        simp [hd, hu', hneg]
      exact ⟨_, hs, by simp only [handle_host_stats, h1, h2, hk, if_false, hs]⟩

/-- An instance: the values `abc`, a number above `ULONG_MAX`, and ` +4x`. -/
theorem maxjobs_rejected_iff_witness :
    handle_host_stats "IP:10.0.0.9\nMaxJobs:abc".toList sys_seven
        = Res.throw Exn.invalid_argument sys_seven
      ∧ handle_host_stats "IP:10.0.0.9\nMaxJobs:99999999999999999999".toList sys_seven
        = Res.throw Exn.out_of_range sys_seven
      ∧ ∃ n, stoul " +4x".toList = Except.ok n
          ∧ handle_host_stats "IP:10.0.0.9\nMaxJobs: +4x".toList sys_seven = Res.ret ()
            { sys_seven with
              total_jobs_available := wrap32 (sys_seven.total_jobs_available + wrap32 n),
              known_ips := sys_seven.known_ips ++ ["10.0.0.9".toList] } :=
  ⟨(maxjobs_rejected_iff sys_seven "IP:10.0.0.9\nMaxJobs:abc".toList "10.0.0.9".toList
      "abc".toList (by decide) (by decide) (by decide)).1 (by decide),
   (maxjobs_rejected_iff sys_seven "IP:10.0.0.9\nMaxJobs:99999999999999999999".toList
      "10.0.0.9".toList "99999999999999999999".toList (by decide) (by decide) (by decide)).2.1
      (by decide) (by decide),
   (maxjobs_rejected_iff sys_seven "IP:10.0.0.9\nMaxJobs: +4x".toList "10.0.0.9".toList
      " +4x".toList (by decide) (by decide) (by decide)).2.2 (by decide) (by decide)⟩

/-- C4 (as stated) fails: the values `4abc`, `-1`, ` 4` and `+4` of a
not-yet-seen IP are accepted; a number is added and the IP is recorded. -/
theorem maxjobs_lenient :
    handle_host_stats "IP:a\nMaxJobs:4abc".toList Sys.fresh
        = Res.ret () { Sys.fresh with total_jobs_available := 4, known_ips := ["a".toList] }
      ∧ handle_host_stats "IP:a\nMaxJobs:-1".toList Sys.fresh
        = Res.ret () { Sys.fresh with total_jobs_available := -1, known_ips := ["a".toList] }
      ∧ handle_host_stats "IP:a\nMaxJobs: 4".toList Sys.fresh
        = Res.ret () { Sys.fresh with total_jobs_available := 4, known_ips := ["a".toList] }
      ∧ handle_host_stats "IP:a\nMaxJobs:+4".toList Sys.fresh
        = Res.ret () { Sys.fresh with total_jobs_available := 4, known_ips := ["a".toList] } := by
  decide

/-- Whatever the outcome, a pass over a non-empty list begins by starting a
probe for the first name. -/
theorem probe_names_head (env : Env) (fuel : Nat) (name : Str) (rest : List Str) (s : Sys)
    (hs : s.scheduler = none) :
    ∃ tail, (probe_names env fuel (name :: rest) s).sys.events
      = s.events ++ Event.discover name :: tail := by
  obtain ⟨added, e1, _, _, _, _, _, _, _, _, e10⟩ := probe_first_spec env name fuel s hs
  unfold probe_names
  dsimp only
  cases hr : probe_wait env name fuel (reset_scheduler env name (s.log (Event.discover name))) with
  | ret u s2 =>
    rw [hr] at e1
    simp only [Res.sys, Sys.log] at e1
    simp only [Res.bind]
    rcases (e10 s2 hr).2 (by simp [Sys.log, hs]) with ⟨k1, _⟩ | ⟨fd, k1, _⟩
    · rw [k1]
      dsimp only
      obtain ⟨added2, f1, _⟩ := probe_names_spec env fuel rest s2 k1
      exact ⟨added ++ added2, by rw [f1, e1]; simp⟩
    · rw [k1]
      dsimp only
      exact ⟨added, by
        simp only [Res.sys]
        rw [(adopt_fields env name { fd := fd, bulk := false } s2).1, e1]
        simp⟩
  | exit c s2 =>
    rw [hr] at e1
    simp only [Res.sys, Sys.log] at e1
    exact ⟨added, by simp [Res.bind, Res.sys, e1]⟩
  | throw e s2 =>
    rw [hr] at e1
    simp only [Res.sys, Sys.log] at e1
    exact ⟨added, by simp [Res.bind, Res.sys, e1]⟩
  | null_deref s2 =>
    rw [hr] at e1
    simp only [Res.sys, Sys.log] at e1
    exact ⟨added, by simp [Res.bind, Res.sys, e1]⟩
  | out_of_fuel s2 =>
    rw [hr] at e1
    simp only [Res.sys, Sys.log] at e1
    exact ⟨added, by simp [Res.bind, Res.sys, e1]⟩

/-- C6: the candidate list of one pass of `check_scheduler` is the configured
network name when it is not empty, otherwise `ICECREAM`, followed by the value
of `USE_SCHEDULER` when it is set, and nothing else, and the candidates are
probed in that order.  Whatever the outcome of the pass, the first thing it
does is start a probe for the first candidate, and the probes it starts are
those of a prefix of the list, in the order of the list.  When the pass ends
without a connection, a probe was started for every candidate, in order, and
none produced a connection.  When the pass ends with a connection, the probes
started are exactly the candidates up to the one that yielded it: every
earlier candidate was probed before it and produced no connection, the
yielding candidate produced the connection now held, and no later candidate
was probed. -/
theorem candidates_in_order (env : Env) (fuel : Nat) (s : Sys) (hs : s.scheduler = none) :
    candidate_names env s
        = (if s.network_name = [] then "ICECREAM".toList else s.network_name)
            :: env.USE_SCHEDULER.toList
      ∧ ∃ added, (probe_names env fuel (candidate_names env s) s).sys.events = s.events ++ added
          ∧ added.head? = some (Event.discover
              (if s.network_name = [] then "ICECREAM".toList else s.network_name))
          ∧ probes_started added <+: candidate_names env s
          ∧ (∀ s1, probe_names env fuel (candidate_names env s) s = Res.ret false s1 →
              probes_started added = candidate_names env s ∧ connections_got added = []
                ∧ s1.scheduler = none)
          ∧ (∀ s1, probe_names env fuel (candidate_names env s) s = Res.ret true s1 →
              ∃ pre name post fd, candidate_names env s = pre ++ name :: post
                ∧ probes_started added = pre ++ [name]
                ∧ connections_got added = [(name, fd)]
                ∧ s1.scheduler = some { fd := fd, bulk := true }) := by
  have hc : candidate_names env s
      = (if s.network_name = [] then "ICECREAM".toList else s.network_name)
          :: env.USE_SCHEDULER.toList := by
    unfold candidate_names
    cases hn : s.network_name <;> cases he : env.USE_SCHEDULER <;> simp
  refine ⟨hc, ?_⟩
  obtain ⟨added, e1, e2, _, _, _, _, e7, e8⟩ :=
    probe_names_spec env fuel (candidate_names env s) s hs
  obtain ⟨tail, ht⟩ := probe_names_head env fuel
    (if s.network_name = [] then "ICECREAM".toList else s.network_name)
    env.USE_SCHEDULER.toList s hs
  rw [← hc, e1] at ht
  have ha : added = Event.discover
      (if s.network_name = [] then "ICECREAM".toList else s.network_name) :: tail :=
    List.append_cancel_left ht
  refine ⟨added, e1, by rw [ha]; rfl, e2, fun s1 h => ?_, fun s1 h => ?_⟩
  · obtain ⟨g1, g2, g3, _⟩ := e7 s1 h
    exact ⟨g1, g2, g3⟩
  · obtain ⟨pre, name, post, fd, g1, g2, g3, g4, _⟩ := e8 s1 h
    exact ⟨pre, name, post, fd, g1, g2, g3, g4⟩

/-- An instance: with the name `FOO` and the override `BAR` the list is
`FOO`, `BAR`; when only `BAR` has a scheduler, the pass probes `FOO`, then
`BAR`, and holds the connection of `BAR`; when no network has a scheduler, the
pass probes `FOO`, then `BAR`, and ends without a connection; with no name and
no override the list is `ICECREAM`. -/
theorem candidates_in_order_witness :
    candidate_names env_bar sys_foo = ["FOO".toList, "BAR".toList]
      ∧ candidate_names env_silent Sys.fresh = ["ICECREAM".toList]
      ∧ (∃ s1, probe_names env_bar 1 (candidate_names env_bar sys_foo) sys_foo = Res.ret true s1
          ∧ (∃ pre name post fd, candidate_names env_bar sys_foo = pre ++ name :: post
              ∧ probes_started s1.events = pre ++ [name]
              ∧ connections_got s1.events = [(name, fd)]
              ∧ s1.scheduler = some { fd := fd, bulk := true })
          ∧ probes_started s1.events = ["FOO".toList, "BAR".toList]
          ∧ connections_got s1.events = [("BAR".toList, 7)])
      ∧ (∃ s1, probe_names env_nobody 1 (candidate_names env_nobody sys_foo) sys_foo
            = Res.ret false s1
          ∧ probes_started s1.events = candidate_names env_nobody sys_foo
          ∧ connections_got s1.events = []
          ∧ s1.scheduler = none
          ∧ probes_started s1.events = ["FOO".toList, "BAR".toList]) := by
  refine ⟨(candidates_in_order env_bar 1 sys_foo rfl).1.trans (by decide),
    (candidates_in_order env_silent 1 Sys.fresh rfl).1.trans (by decide), ?_, ?_⟩
  · obtain ⟨_, added, e1, _, _, _, e6⟩ := candidates_in_order env_bar 1 sys_foo rfl
    have hr : probe_names env_bar 1 (candidate_names env_bar sys_foo) sys_foo
        = Res.ret true (Res.sys (probe_names env_bar 1 (candidate_names env_bar sys_foo) sys_foo)) :=
      by decide
    have ha : added
        = (Res.sys (probe_names env_bar 1 (candidate_names env_bar sys_foo) sys_foo)).events := by
      rw [e1]; rfl
    subst ha
    exact ⟨_, hr, e6 _ hr, by decide, by decide⟩
  · obtain ⟨_, added, e1, _, _, e5, _⟩ := candidates_in_order env_nobody 1 sys_foo rfl
    have hr : probe_names env_nobody 1 (candidate_names env_nobody sys_foo) sys_foo
        = Res.ret false
            (Res.sys (probe_names env_nobody 1 (candidate_names env_nobody sys_foo) sys_foo)) :=
      by decide
    have ha : added = (Res.sys (probe_names env_nobody 1 (candidate_names env_nobody sys_foo)
        sys_foo)).events := by
      rw [e1]; rfl
    subst ha
    obtain ⟨g1, g2, g3⟩ := e5 _ hr
    exact ⟨_, hr, g1, g2, g3, by decide⟩

theorem listen_spec (env : Env) (fuel : Nat) (d : Int) (s : Sys) :
    (env.send_msg s.tick = true →
        (∀ s1, listen env fuel d s ≠ Res.ret () s1)
          ∧ ∀ c s1, listen env fuel d s = Res.exit c s1 →
              c = 0 ∧ s1.stdout = s.stdout ++ fmt_d s1.total_jobs_available ++ ['\n'])
      ∧ (env.send_msg s.tick = false →
          (∀ s1, listen env fuel d s = Res.ret () s1 →
              s1.stdout = s.stdout ∧ s1.scheduler.isSome = true)
            ∧ ∀ c s1, listen env fuel d s = Res.exit c s1 →
                c = EXIT_FAILURE ∧ s1.stdout = s.stdout) := by
  constructor
  · intro hsend
    unfold listen
    cases hsch : s.scheduler with
    | none => exact ⟨by simp, by simp⟩
    | some ch =>
      dsimp only
      rw [hsend]
      simp only [Bool.not_true, Bool.false_eq_true, if_false]
      obtain ⟨k1, _, k3, _⟩ := listen_loop_spec env d fuel (s.step Event.send_login)
      exact ⟨k1, k3⟩
  · intro hsend
    unfold listen
    cases hsch : s.scheduler with
    | none => exact ⟨by simp, by simp⟩
    | some ch =>
      dsimp only
      rw [hsend]
      simp only [Bool.not_false, if_true]
      unfold check_scheduler
      simp only [if_true, Sys.log, Sys.step, hsch]
      obtain ⟨added, e1, e2, e3, e4, e5, e6⟩ := check_scheduler_loop_spec env fuel
        { network_name := s.network_name, scheduler_name := s.scheduler_name, scheduler := none,
          state := s.state, known_ips := s.known_ips,
          total_jobs_available := s.total_jobs_available, stdout := s.stdout,
          events := s.events ++ [Event.send_login] ++ [Event.sleep 1] ++ [Event.release ch.fd],
          tick := s.tick + 1 }
      constructor
      · intro s1 h
        rw [h] at e2
        obtain ⟨k, pre, name, post, fd, _, _, _, q4, _⟩ := (e6 s1 h).2 rfl
        exact ⟨e2, by rw [q4]; rfl⟩
      · intro c s1 h
        rw [h] at e2
        exact ⟨e5 c s1 h, e2⟩

/-- C7 (amended): on a connection on which the monitor-login request was
sent, `listen` never returns to its caller and dereferences no null pointer;
whenever it ends by process exit, the status is 0 and the aggregate total,
with a newline, was printed last; the only other way it ends is an uncaught
exception raised while a stats payload is handled, and then nothing was
printed. -/
theorem listen_ends (env : Env) (fuel : Nat) (d : Int) (s : Sys) (ch : MsgChannel)
    (hs : s.scheduler = some ch) (hsend : env.send_msg s.tick = true) :
    (∀ s1, listen env fuel d s ≠ Res.ret () s1)
      ∧ (∀ c s1, listen env fuel d s = Res.exit c s1 →
          c = 0 ∧ s1.stdout = s.stdout ++ fmt_d s1.total_jobs_available ++ ['\n'])
      ∧ (∀ e s1, listen env fuel d s = Res.throw e s1 → s1.stdout = s.stdout)
      ∧ (∀ s1, listen env fuel d s ≠ Res.null_deref s1) := by
  have el : listen env fuel d s = listen_loop env d fuel (s.step Event.send_login) := by
    unfold listen
    rw [hs]
    dsimp only
    rw [hsend]
    rfl
  rw [el]
  obtain ⟨k1, _, k3, k4, k5⟩ := listen_loop_spec env d fuel (s.step Event.send_login)
  exact ⟨k1, k3, k4, k5 (by simp [Sys.step, hs])⟩

/-- An instance: a quiet session after a successful login prints the 7 jobs
counted, and a session that receives a report without `MaxJobs` ends by an
exception with nothing printed. -/
theorem listen_ends_witness :
    (∃ s1, listen env_quiet 1 2000 sys_seven = Res.exit 0 s1 ∧ s1.stdout = "7\n".toList)
      ∧ ∃ s1, listen env_no_maxjobs 3 2000 sys_seven = Res.throw Exn.out_of_range s1
          ∧ s1.stdout = [] :=
  ⟨⟨Res.sys (listen env_quiet 1 2000 sys_seven), by decide,
      ((listen_ends env_quiet 1 2000 sys_seven { fd := 5, bulk := true } rfl (by decide)).2.1 0
        (Res.sys (listen env_quiet 1 2000 sys_seven)) (by decide)).2.trans (by decide)⟩,
   ⟨Res.sys (listen env_no_maxjobs 3 2000 sys_seven), by decide,
      (listen_ends env_no_maxjobs 3 2000 sys_seven { fd := 5, bulk := true } rfl
        (by decide)).2.2.1 Exn.out_of_range
        (Res.sys (listen env_no_maxjobs 3 2000 sys_seven)) (by decide)⟩⟩

/-- C7 (as stated) fails: when the login request cannot be sent, `listen`
returns normally after re-acquiring a scheduler and nothing has been printed,
and `main` then ends the process with status 0 and an empty output; and a
report without `MaxJobs` from a new host ends `listen` by an exception, again
with nothing printed. -/
theorem listen_returns_silently :
    listen env_bar 2 2000 sys_seven = Res.ret ()
        { sys_seven with
          network_name := "BAR".toList
          scheduler_name := "sched".toList
          scheduler := some { fd := 7, bulk := true }
          events := [Event.send_login, Event.sleep 1, Event.release 5,
            Event.discover "ICECREAM".toList, Event.try_get_scheduler "ICECREAM".toList none,
            Event.discover "BAR".toList, Event.try_get_scheduler "BAR".toList (some 7)]
          tick := 6 }
      ∧ (Res.sys (listen env_bar 2 2000 sys_seven)).stdout = []
      ∧ (∃ s1, main env_bar 3 = Res.exit 0 s1 ∧ s1.stdout = [])
      ∧ (∃ s1, listen env_no_maxjobs 3 2000 sys_seven = Res.throw Exn.out_of_range s1
          ∧ s1.stdout = []) := by
  refine ⟨by decide, by decide, ⟨_, rfl, by decide⟩, ⟨_, rfl, by decide⟩⟩

theorem main_wait_spec : ∀ (fuel : Nat) (s : Sys),
    (main_wait fuel s).sys.stdout = s.stdout ∧ ∀ c s1, main_wait fuel s ≠ Res.exit c s1 := by
  intro fuel
  induction fuel with
  | zero => intro s; exact ⟨rfl, by simp [main_wait]⟩
  | succ fuel ih =>
    intro s
    unfold main_wait
    split
    · exact ⟨rfl, by simp⟩
    · exact ih _

theorem main_output (env : Env) (fuel : Nat) (c : Int) (s1 : Sys)
    (h : main env fuel = Res.exit c s1) :
    s1.stdout = [] ∨ (c = 0 ∧ s1.stdout = fmt_d s1.total_jobs_available ++ ['\n']) := by
  unfold main at h
  obtain ⟨added, _, e2, _, _, e5, _⟩ := check_scheduler_loop_spec env fuel Sys.fresh
  have hcs : check_scheduler env fuel false Sys.fresh = check_scheduler_loop env fuel Sys.fresh := rfl
  rw [hcs] at h
  cases h1 : check_scheduler_loop env fuel Sys.fresh with
  | ret u sA =>
    rw [h1] at h e2
    simp only [Res.sys] at e2
    simp only [Res.bind] at h
    obtain ⟨w1, w2⟩ := main_wait_spec fuel sA
    cases h2 : main_wait fuel sA with
    | ret u2 sB =>
      rw [h2] at h w1
      simp only [Res.sys] at w1
      simp only [Res.bind] at h
      have hB : sB.stdout = [] := by rw [w1, e2]; rfl
      obtain ⟨l1, l2⟩ := listen_spec env fuel 2000 sB
      cases h3 : listen env fuel 2000 sB with
      | ret u3 sC =>
        rw [h3] at h
        simp only [Res.bind, Res.exit.injEq] at h
        cases hsend : env.send_msg sB.tick with
        | true => exact absurd h3 ((l1 hsend).1 sC)
        | false =>
          left
          rw [← h.2, ((l2 hsend).1 sC h3).1, hB]
      | exit c3 sC =>
        rw [h3] at h
        simp only [Res.bind, Res.exit.injEq] at h
        cases hsend : env.send_msg sB.tick with
        | true =>
          right
          obtain ⟨q1, q2⟩ := (l1 hsend).2 c3 sC h3
          rw [← h.1, ← h.2]
          exact ⟨q1, by rw [q2, hB]; rfl⟩
        | false =>
          left
          rw [← h.2, ((l2 hsend).2 c3 sC h3).2, hB]
      | throw e3 sC => rw [h3] at h; simp [Res.bind] at h
      | null_deref sC => rw [h3] at h; simp [Res.bind] at h
      | out_of_fuel sC => rw [h3] at h; simp [Res.bind] at h
    | exit c2 sB => exact absurd h2 (w2 c2 sB)
    | throw e2 sB => rw [h2] at h; simp [Res.bind] at h
    | null_deref sB => rw [h2] at h; simp [Res.bind] at h
    | out_of_fuel sB => rw [h2] at h; simp [Res.bind] at h
  | exit c1 sA =>
    rw [h1] at h e2
    simp only [Res.sys] at e2
    simp only [Res.bind, Res.exit.injEq] at h
    left
    rw [← h.2, e2]
    rfl
  | throw e1 sA => rw [h1] at h; simp [Res.bind] at h
  | null_deref sA => rw [h1] at h; simp [Res.bind] at h
  | out_of_fuel sA => rw [h1] at h; simp [Res.bind] at h

/-- C2: in every state with a connection, when the wait of the message loop
elapses, when decoding the next message yields nothing, or when the next
message is not a stats message, the loop ends by process exit with status 0
after appending the decimal rendering of the unaltered `total_jobs_available`
and a newline to the output; with nothing printed before and a total of 0
(no stats handled) the whole output of `listen` after an elapsed wait is `0`
and a newline; and whenever the program exits, its whole output is either
empty or exactly that one line, with status 0. -/
theorem stop_prints_total (env : Env) (d : Int) (fuel : Nat) (s : Sys) (ch : MsgChannel)
    (hs : s.scheduler = some ch) :
    (env.poll ch.fd (wrap32 d) s.tick = 0 →
        listen_loop env d (fuel + 1) s = Res.exit 0
          { s.step (Event.poll ch.fd (wrap32 d)) with
            stdout := s.stdout ++ fmt_d s.total_jobs_available ++ ['\n'] })
      ∧ ((drain_cond env s).1 = true → env.get_msg (drain_cond env s).2.tick = none →
          listen_drain env (fuel + 2) s = Res.exit 0
            { (drain_cond env s).2.next with
              state := monitor_state.OFFLINE
              stdout := s.stdout ++ fmt_d s.total_jobs_available ++ ['\n'] })
      ∧ (∀ m : Msg, (drain_cond env s).1 = true →
          env.get_msg (drain_cond env s).2.tick = some m → m.type ≠ MsgType.M_MON_STATS →
          listen_drain env (fuel + 1) s = Res.exit 0
            { (drain_cond env s).2.next with
              stdout := s.stdout ++ fmt_d s.total_jobs_available ++ ['\n'] })
      ∧ (s.stdout = [] → s.total_jobs_available = 0 → env.send_msg s.tick = true →
          env.poll ch.fd (wrap32 d) (s.tick + 1) = 0 →
          ∃ s1, listen env (fuel + 1) d s = Res.exit 0 s1 ∧ s1.stdout = "0\n".toList)
      ∧ (∀ c s1, main env fuel = Res.exit c s1 →
          s1.stdout = [] ∨ (c = 0 ∧ s1.stdout = fmt_d s1.total_jobs_available ++ ['\n'])) := by
  have hd : (drain_cond env s).2.scheduler = some ch := by
    unfold drain_cond
    split <;> simp [Sys.next, hs]
  have hds : (drain_cond env s).2.stdout = s.stdout := drain_cond_stdout env s
  have hdt : (drain_cond env s).2.total_jobs_available = s.total_jobs_available := by
    unfold drain_cond
    split <;> rfl
  have p1 : ∀ s0 : Sys, s0.scheduler = some ch → env.poll ch.fd (wrap32 d) s0.tick = 0 →
      listen_loop env d (fuel + 1) s0 = Res.exit 0
        { s0.step (Event.poll ch.fd (wrap32 d)) with
          stdout := s0.stdout ++ fmt_d s0.total_jobs_available ++ ['\n'] } := by
    intro s0 h0 hp
    simp [listen_loop, h0, fdin, hp, print_jobs_and_quit, Sys.step]
  refine ⟨fun hp => p1 s hs hp, fun hc hg => ?_, fun m hc hg hm => ?_, fun h0 ht hsend hp => ?_,
    fun c s1 h => main_output env fuel c s1 h⟩
  · have hh := handle_activity_lost env fuel (drain_cond env s).2 ch hd hg
    unfold listen_drain
    rw [hs]
    dsimp only
    rw [if_pos hc, hh]
    simp [Res.bind, print_jobs_and_quit, Sys.next, hds, hdt]
  · have hh : handle_activity env fuel (drain_cond env s).2
        = Res.ret false (drain_cond env s).2.next := by
      unfold handle_activity
      rw [hd]
      dsimp only
      rw [hg]
      dsimp only
      rw [if_neg hm]
    unfold listen_drain
    rw [hs]
    dsimp only
    rw [if_pos hc, hh]
    simp [Res.bind, print_jobs_and_quit, Sys.next, hds, hdt]
  · have e := p1 (s.step Event.send_login) (by simp [Sys.step, hs])
      (by simpa [Sys.step] using hp)
    have el : listen env (fuel + 1) d s = listen_loop env d (fuel + 1) (s.step Event.send_login) := by
      unfold listen
      rw [hs]
      dsimp only
      rw [hsend]
      rfl
    refine ⟨_, el.trans e, ?_⟩
    simp only [Sys.step, h0, ht]
    decide

/-- An instance: each cause of stopping after 7 jobs were counted prints `7`, and a quiet session prints `0`. -/
theorem stop_prints_total_witness :
    listen_loop env_quiet 2000 1 sys_seven = Res.exit 0
        { sys_seven with stdout := "7\n".toList, events := [Event.poll 5 2000], tick := 1 }
      ∧ listen_drain env_bar 2 sys_seven = Res.exit 0
        { sys_seven with stdout := "7\n".toList, state := monitor_state.OFFLINE, tick := 3 }
      ∧ listen_drain env_other 1 sys_seven = Res.exit 0
        { sys_seven with stdout := "7\n".toList, tick := 3 }
      ∧ (∃ s1, listen env_quiet 1 2000 { sys_seven with total_jobs_available := 0 }
          = Res.exit 0 s1 ∧ s1.stdout = "0\n".toList)
      ∧ (Res.sys (main env_quiet 3)).stdout = "0\n".toList :=
  ⟨(stop_prints_total env_quiet 2000 0 sys_seven { fd := 5, bulk := true } rfl).1 (by decide),
   (stop_prints_total env_bar 2000 0 sys_seven { fd := 5, bulk := true } rfl).2.1
      (by decide) (by decide),
   (stop_prints_total env_other 2000 0 sys_seven
      { fd := 5, bulk := true } rfl).2.2.1 { type := MsgType.M_OTHER 0, statmsg := none }
      (by decide) (by decide) (by decide),
   (stop_prints_total env_quiet 2000 0 { sys_seven with total_jobs_available := 0 }
      { fd := 5, bulk := true } rfl).2.2.2.1 (by decide) (by decide) (by decide) (by decide),
   (((stop_prints_total env_quiet 2000 3 sys_seven { fd := 5, bulk := true } rfl).2.2.2.2 0
      (Res.sys (main env_quiet 3)) (by decide)).resolve_left (by decide)).2.trans (by decide)⟩

/-- C8 (code at the failing input): with no connection, a probe that has not
timed out and has a descriptor, a wait that merely elapses (`poll` gives 0,
no error) ends the process with `EXIT_FAILURE` after `perror`; no further
attempt to obtain a connection is made. -/
theorem elapsed_wait_is_fatal :
    env_silent.poll 3 3000 3 = 0
      ∧ fdin env_silent 3 3000 Sys.fresh = (-1, Sys.fresh.step (Event.poll 3 3000))
      ∧ check_scheduler env_silent 2 false Sys.fresh = Res.exit EXIT_FAILURE
          { Sys.fresh with
            events := [Event.discover "ICECREAM".toList,
              Event.try_get_scheduler "ICECREAM".toList none, Event.poll 3 3000,
              Event.perror "waiting for socket".toList]
            tick := 5 }
      ∧ (∃ s1, main env_silent 3 = Res.exit EXIT_FAILURE s1 ∧ s1.stdout = []) := by
  refine ⟨by decide, by decide, by decide, _, rfl, by decide⟩

/-- C9: whenever `check_scheduler` returns, a connection is held.  Either it
was held on entry and nothing changed, or it was obtained during the call:
then it is the only connection a probe produced during the call, it came from
the last probe started, the probes started are whole passes over the candidate
list followed by the candidates up to the yielding one (no later candidate is
probed), the phase is `ONLINE`, the connection is in bulk-transfer mode, and
`network_name` and `scheduler_name` are the last two answers of the yielding
probe. -/
theorem check_scheduler_returns_connected (env : Env) (fuel : Nat) (deleteit : Bool)
    (s s1 : Sys) (h : check_scheduler env fuel deleteit s = Res.ret () s1) :
    s1.scheduler.isSome = true
      ∧ ((deleteit = false ∧ s.scheduler.isSome = true ∧ s1 = s)
        ∨ ∃ added k pre name post fd, s1.events = s.events ++ added
            ∧ candidate_names env s = pre ++ name :: post
            ∧ probes_started added = repeat_names k (candidate_names env s) ++ (pre ++ [name])
            ∧ connections_got added = [(name, fd)]
            ∧ s1.scheduler = some { fd := fd, bulk := true }
            ∧ s1.state = monitor_state.ONLINE
            ∧ s1.network_name = env.networkName name (s1.tick - 2)
            ∧ s1.scheduler_name = env.schedulerName name (s1.tick - 1)) := by
  unfold check_scheduler at h
  cases hsch : s.scheduler with
  | none =>
    have h' : check_scheduler_loop env fuel s = Res.ret () s1 := by
      cases deleteit <;> simpa [hsch] using h
    obtain ⟨added, e1, _, _, _, _, e6⟩ := check_scheduler_loop_spec env fuel s
    rw [h'] at e1
    obtain ⟨k, pre, name, post, fd, q1, q2, q3, q4, q5, q6, q7⟩ := (e6 s1 h').2 hsch
    exact ⟨by rw [q4]; rfl, Or.inr ⟨added, k, pre, name, post, fd, e1, q1, q2, q3, q4, q5, q6, q7⟩⟩
  | some ch =>
    cases deleteit with
    | false =>
      have h' : check_scheduler_loop env fuel s = Res.ret () s1 := by simpa using h
      obtain ⟨added, _, _, _, _, _, e6⟩ := check_scheduler_loop_spec env fuel s
      have hs1 := (e6 s1 h').1 (by simp [hsch])
      exact ⟨by rw [hs1, hsch]; rfl, Or.inl ⟨rfl, by simp [hsch], hs1⟩⟩
    | true =>
      simp only [if_true, hsch] at h
      obtain ⟨added, e1, _, _, _, _, e6⟩ := check_scheduler_loop_spec env fuel
        { s.log (Event.release ch.fd) with scheduler := none }
      rw [h] at e1
      obtain ⟨k, pre, name, post, fd, q1, q2, q3, q4, q5, q6, q7⟩ := (e6 s1 h).2 rfl
      have hc : candidate_names env { s.log (Event.release ch.fd) with scheduler := none }
          = candidate_names env s := candidate_names_congr env s _ rfl
      rw [hc] at q1 q2
      refine ⟨by rw [q4]; rfl, Or.inr ⟨[Event.release ch.fd] ++ added, k, pre, name, post, fd,
        ?_, q1, ?_, ?_, q4, q5, q6, q7⟩⟩
      · simpa [Res.sys, Sys.log, List.append_assoc] using e1
      · rw [probes_started_append, q2]; rfl
      · rw [connections_got_append, q3]; rfl

/-- An instance: the probe for `FOO` yields nothing and the probe for `BAR` yields a connection. -/
theorem check_scheduler_returns_connected_witness :
    (Res.sys (check_scheduler env_bar 2 false sys_foo)).scheduler.isSome = true
      ∧ ((false = false ∧ sys_foo.scheduler.isSome = true
            ∧ Res.sys (check_scheduler env_bar 2 false sys_foo) = sys_foo)
        ∨ ∃ added k pre name post fd,
            (Res.sys (check_scheduler env_bar 2 false sys_foo)).events = sys_foo.events ++ added
            ∧ candidate_names env_bar sys_foo = pre ++ name :: post
            ∧ probes_started added
                = repeat_names k (candidate_names env_bar sys_foo) ++ (pre ++ [name])
            ∧ connections_got added = [(name, fd)]
            ∧ (Res.sys (check_scheduler env_bar 2 false sys_foo)).scheduler
                = some { fd := fd, bulk := true }
            ∧ (Res.sys (check_scheduler env_bar 2 false sys_foo)).state = monitor_state.ONLINE
            ∧ (Res.sys (check_scheduler env_bar 2 false sys_foo)).network_name
                = env_bar.networkName name
                    ((Res.sys (check_scheduler env_bar 2 false sys_foo)).tick - 2)
            ∧ (Res.sys (check_scheduler env_bar 2 false sys_foo)).scheduler_name
                = env_bar.schedulerName name
                    ((Res.sys (check_scheduler env_bar 2 false sys_foo)).tick - 1)) :=
  check_scheduler_returns_connected env_bar 2 false sys_foo
    (Res.sys (check_scheduler env_bar 2 false sys_foo)) (by decide)

/-- C10 (code at the failing input): when decoding yields nothing,
`handle_activity` sets the phase to `OFFLINE` and returns `false`, but its
call `check_scheduler()` finds the connection still held and does nothing:
the dead connection is kept, no probe is started and no event occurs, although
a probe for `BAR` would have produced a connection. -/
theorem lost_connection_is_kept :
    env_bar.get_msg sys_seven.tick = none
      ∧ handle_activity env_bar 1 sys_seven
          = Res.ret false { sys_seven with state := monitor_state.OFFLINE, tick := 1 }
      ∧ (Res.sys (handle_activity env_bar 1 sys_seven)).scheduler = sys_seven.scheduler
      ∧ probes_started (Res.sys (handle_activity env_bar 1 sys_seven)).events = []
      ∧ (Res.sys (check_scheduler env_bar 2 true sys_seven)).scheduler
          = some { fd := 7, bulk := true } := by
  decide

end Icejobs
